import Mathlib

/-!
Shallow embedding of the MyLibraryPy library-management service
(`src/app.py`): the borrowing/reservation state machine, the book
inventory ledger and the due-date calculator, together with proofs of the
consistency properties the service maintains.

Dates: the source manipulates `datetime` values only through
`weekday()` (0 = Monday), `+ timedelta(days=1)`, `replace(hour, minute,
second, microsecond)` and `isoformat()`.  We model an instant as an
absolute day count (with `day % 7 = 0` meaning Monday) plus the time of
day.  Persisted timestamps are strings, with `""` standing for a null
timestamp, exactly as the CSV layer does.
-/

namespace MyLib

/-- Model of a Python `datetime`: absolute day count plus time of day.
`day % 7 = 0` corresponds to Monday, matching `date.weekday() == 0`. -/
structure DT where
  day : Nat
  hour : Nat
  minute : Nat
  second : Nat
  microsecond : Nat
deriving DecidableEq

/-- `is_working_day` from `app.py`: `date.weekday() < 5` (Monday-Friday). -/
def is_working_day (d : DT) : Bool := d.day % 7 < 5

/-- `date + timedelta(days=n)`. -/
def addDays (d : DT) (n : Nat) : DT := { d with day := d.day + n }

/-- `date.replace(hour=23, minute=59, second=59, microsecond=999999)`. -/
def endOfDay (d : DT) : DT :=
  { d with hour := 23, minute := 59, second := 59, microsecond := 999999 }

/-- The `for _ in range(...)` loop of `calculate_due_date`: each iteration
advances one calendar day, counts it if it is a working day, and breaks as
soon as `target` working days have been counted.  `fuel` is the number of
remaining loop iterations. -/
def dueLoop : Nat → DT → Nat → Nat → DT
  | 0, cur, _, _ => cur
  | fuel + 1, cur, cnt, target =>
    let cur2 := addDays cur 1
    let cnt2 := if is_working_day cur2 then cnt + 1 else cnt
    if target ≤ cnt2 then cur2 else dueLoop fuel cur2 cnt2 target

/-- `calculate_due_date` from `app.py`: walks forward day by day counting
working days, for at most `max_weeks * 7 + 7` calendar days, breaking once
`max_weeks * 5` working days are counted; the resulting day is normalized
to its last instant. -/
def calculate_due_date (borrow_date : DT) (max_weeks : Nat) : DT :=
  endOfDay (dueLoop (max_weeks * 7 + 7) borrow_date 0 (max_weeks * 5))

/-- `datetime.isoformat()`: some textual rendering of the instant.  Claims
only ever depend on such a rendering being a non-empty string (the CSV
layer uses `""` for null timestamps). -/
def isoformat (d : DT) : String :=
  toString d.day ++ "T" ++ toString d.hour ++ ":" ++ toString d.minute ++ ":"
    ++ toString d.second ++ "." ++ toString d.microsecond

/-- A row of `users.csv` (password hash omitted: never read by the
operations modelled here). -/
structure User where
  id : Nat
  username : String
  role : String
  token : String
deriving DecidableEq

/-- A row of `books.csv`.  The CSV stores numbers as strings; Python
re-parses them with `int(...)` at every use, so copies are unbounded
integers. `publication_year` is kept as its stored string (`""` = null). -/
structure Book where
  id : Nat
  title : String
  author : String
  isbn : String
  publication_year : String
  total_copies : Int
  available_copies : Int
deriving DecidableEq

/-- A row of `borrowing_records.csv`.  Timestamps are stored strings with
`""` for null; `status` is one of `"reserved"`, `"borrowed"`,
`"returned"`, `"cancelled"` in reachable states. -/
structure BorrowingRecord where
  id : Nat
  student_id : Nat
  book_id : Nat
  borrow_date : String
  due_date : String
  return_date : String
  status : String
deriving DecidableEq

/-- The three in-memory tables (`users_data`, `books_data`,
`borrowing_records_data`). -/
structure LibState where
  users : List User
  books : List Book
  records : List BorrowingRecord
deriving DecidableEq

/-- The observable reply of an endpoint: message string, HTTP status code,
and the record or book payload when one is returned. -/
structure Response where
  message : String
  code : Nat
  record : Option BorrowingRecord
  book : Option Book
deriving DecidableEq

/-- `_get_next_id`: 1 on an empty table, otherwise the maximum id plus 1. -/
def get_next_id (ids : List Nat) : Nat :=
  match ids with
  | [] => 1
  | _ => ids.foldl Nat.max 0 + 1

/-- In-place mutation of the first list element satisfying `p` (Python
mutates the dict object returned by `next(...)` inside the list). -/
def updateFirst (p : α → Bool) (f : α → α) : List α → List α
  | [] => []
  | x :: xs => if p x then f x :: xs else x :: updateFirst p f xs

/-- `del data[index]` where `index` is the first index whose element
satisfies `p`. -/
def removeFirst (p : α → Bool) : List α → List α
  | [] => []
  | x :: xs => if p x then xs else x :: removeFirst p xs

/-- Count of records of a given book with status `"borrowed"`. -/
def borrowedCountBook (rs : List BorrowingRecord) (bid : Nat) : Nat :=
  (rs.filter (fun r => r.book_id = bid ∧ r.status = "borrowed")).length

/-- `borrowed_count` computed in `borrow_book`: records of a student with
status `"borrowed"`. -/
def borrowedCountStudent (rs : List BorrowingRecord) (sid : Nat) : Nat :=
  (rs.filter (fun r => r.student_id = sid ∧ r.status = "borrowed")).length

/-- The predicate used by `borrow_book` and `reserve_book` to look up an
existing non-terminal record of a (student, book) pair. -/
def pairActive (sid bid : Nat) (r : BorrowingRecord) : Bool :=
  r.student_id = sid ∧ r.book_id = bid ∧
    (r.status = "borrowed" ∨ r.status = "reserved")

/-- Number of non-terminal records of a (student, book) pair. -/
def pairActiveCount (rs : List BorrowingRecord) (sid bid : Nat) : Nat :=
  (rs.filter (pairActive sid bid)).length

/-- `add_book` (`POST /books`, librarian): validates required fields and
ISBN uniqueness, then appends a book with `available_copies =
total_copies`. -/
def add_book (title author isbn publication_year : String) (total_copies : Int)
    (s : LibState) : LibState × Response :=
  if title = "" ∨ author = "" ∨ isbn = "" then
    (s, ⟨"Missing required book details (title, author, isbn)", 400, none, none⟩)
  else if s.books.any (fun b => b.isbn = isbn) then
    (s, ⟨"Book with this ISBN already exists", 409, none, none⟩)
  else
    let nid := get_next_id (s.books.map (fun b => b.id))
    let nb : Book := ⟨nid, title, author, isbn, publication_year, total_copies, total_copies⟩
    ({ s with books := s.books ++ [nb] },
     ⟨"Book added successfully", 201, none, some nb⟩)

/-- `update_book` (`PUT /books/<id>`, librarian).  Fields present in the
request body are `some`; absent fields are `none`.  The Python code
mutates the found dict field by field and may return early, so earlier
field updates survive a later validation failure within the same request;
the embedding writes the partially updated book back in each early
return. -/
def update_book (book_id : Nat) (title author isbn publication_year : Option String)
    (total_copies : Option Int) (s : LibState) : LibState × Response :=
  match s.books.find? (fun b => b.id = book_id) with
  | none => (s, ⟨"Book not found", 404, none, none⟩)
  | some book =>
    let writeBack := fun (b' : Book) =>
      updateFirst (fun b => b.id = book_id) (fun _ => b') s.books
    let b1 := match title with | some t => { book with title := t } | none => book
    let b2 := match author with | some a => { b1 with author := a } | none => b1
    let isbnConflict : Bool := match isbn with
      | some ni => ¬(ni = book.isbn) ∧
          s.books.any (fun b => ¬(b.id = book_id) ∧ b.isbn = ni)
      | none => false
    if isbnConflict then
      ({ s with books := writeBack b2 },
       ⟨"Book with this ISBN already exists", 409, none, none⟩)
    else
      let b3 := match isbn with | some ni => { b2 with isbn := ni } | none => b2
      let b4 := match publication_year with
        | some py => { b3 with publication_year := py }
        | none => b3
      match total_copies with
      | some new_total =>
        let current_borrowed := b4.total_copies - b4.available_copies
        if new_total < current_borrowed then
          ({ s with books := writeBack b4 },
           ⟨"Cannot reduce total copies below currently borrowed copies", 400, none, none⟩)
        else
          let b5 := { b4 with
            available_copies := b4.available_copies + (new_total - b4.total_copies),
            total_copies := new_total }
          ({ s with books := writeBack b5 },
           ⟨"Book updated successfully", 200, none, some b5⟩)
      | none =>
        ({ s with books := writeBack b4 },
         ⟨"Book updated successfully", 200, none, some b4⟩)

/-- `delete_book` (`DELETE /books/<id>`, librarian): refused while any
record of the book has status `"borrowed"` or `"reserved"`. -/
def delete_book (book_id : Nat) (s : LibState) : LibState × Response :=
  match s.books.find? (fun b => b.id = book_id) with
  | none => (s, ⟨"Book not found", 404, none, none⟩)
  | some _ =>
    let active := s.records.filter
      (fun r => r.book_id = book_id ∧ (r.status = "borrowed" ∨ r.status = "reserved"))
    if active.isEmpty then
      ({ s with books := removeFirst (fun b => b.id = book_id) s.books },
       ⟨"Book deleted successfully", 200, none, none⟩)
    else
      (s, ⟨"Cannot delete book: active borrowing or reservation records exist", 400, none, none⟩)

/-- `borrow_book` (`POST /borrow/<id>`, student).  Checks, in source
order: book existence, availability, the 3-book limit, then an existing
non-terminal record of the pair.  A `"reserved"` record is converted in
place to `"borrowed"`; otherwise a fresh `"borrowed"` record is appended.
Both mutating branches decrement the book's available copies. -/
def borrow_book (now : DT) (student_id book_id : Nat) (s : LibState) :
    LibState × Response :=
  match s.books.find? (fun b => b.id = book_id) with
  | none => (s, ⟨"Book not found", 404, none, none⟩)
  | some book =>
    if book.available_copies ≤ 0 then
      (s, ⟨"No copies of this book are currently available", 400, none, none⟩)
    else if 3 ≤ borrowedCountStudent s.records student_id then
      (s, ⟨"You have reached the maximum limit of 3 borrowed books", 400, none, none⟩)
    else
      match s.records.find? (pairActive student_id book_id) with
      | some er =>
        if er.status = "borrowed" then
          (s, ⟨"You have already borrowed this book", 400, none, none⟩)
        else
          let upd := fun (r : BorrowingRecord) =>
            { r with status := "borrowed", borrow_date := isoformat now,
                     due_date := isoformat (calculate_due_date now 4) }
          ({ s with
              books :=
                updateFirst (fun b => b.id = book_id)
                  (fun b => { b with available_copies := b.available_copies - 1 }) s.books,
              records := updateFirst (pairActive student_id book_id) upd s.records },
           ⟨"Reserved book collected and borrowed successfully", 200, some (upd er), none⟩)
      | none =>
        let nid := get_next_id (s.records.map (fun r => r.id))
        let nr : BorrowingRecord :=
          ⟨nid, student_id, book_id, isoformat now,
           isoformat (calculate_due_date now 4), "", "borrowed"⟩
        ({ s with
            books :=
              updateFirst (fun b => b.id = book_id)
                (fun b => { b with available_copies := b.available_copies - 1 }) s.books,
            records := s.records ++ [nr] },
         ⟨"Book borrowed successfully", 201, some nr, none⟩)

/-- `reserve_book` (`POST /reserve/<id>`, student): appends a
`"reserved"` record with empty dates; no inventory change. -/
def reserve_book (student_id book_id : Nat) (s : LibState) : LibState × Response :=
  match s.books.find? (fun b => b.id = book_id) with
  | none => (s, ⟨"Book not found", 404, none, none⟩)
  | some _ =>
    match s.records.find? (pairActive student_id book_id) with
    | some _ =>
      (s, ⟨"You have already borrowed or reserved this book", 400, none, none⟩)
    | none =>
      let nid := get_next_id (s.records.map (fun r => r.id))
      let nr : BorrowingRecord := ⟨nid, student_id, book_id, "", "", "", "reserved"⟩
      ({ s with records := s.records ++ [nr] },
       ⟨"Book reserved successfully", 201, some nr, none⟩)

/-- `cancel_reservation` (`POST /cancel_reservation/<id>`, student): only
the owning student's `"reserved"` record can be cancelled; the
cancellation instant is stored in `return_date`. -/
def cancel_reservation (now : DT) (student_id borrow_id : Nat) (s : LibState) :
    LibState × Response :=
  match s.records.find? (fun r => r.id = borrow_id ∧ r.student_id = student_id) with
  | none =>
    (s, ⟨"Reservation record not found or does not belong to you", 404, none, none⟩)
  | some record =>
    if record.status = "reserved" then
      let upd := fun (r : BorrowingRecord) =>
        { r with status := "cancelled", return_date := isoformat now }
      ({ s with records :=
          updateFirst (fun r => r.id = borrow_id ∧ r.student_id = student_id) upd s.records },
       ⟨"Reservation cancelled successfully", 200, some (upd record), none⟩)
    else
      (s, ⟨"Only reserved books can be cancelled", 400, none, none⟩)

/-- `return_book` (`POST /return/<id>`, librarian): sets the record to
`"returned"` with `return_date = now`, and increments the book's
available copies only when `borrow_date` is non-empty (a pure reservation
never held a copy). -/
def return_book (now : DT) (borrow_id : Nat) (s : LibState) : LibState × Response :=
  match s.records.find? (fun r => r.id = borrow_id) with
  | none => (s, ⟨"Borrowing record not found", 404, none, none⟩)
  | some record =>
    if record.status = "borrowed" ∨ record.status = "reserved" then
      match s.books.find? (fun b => b.id = record.book_id) with
      | none => (s, ⟨"Associated book not found", 500, none, none⟩)
      | some _ =>
        let upd := fun (r : BorrowingRecord) =>
          { r with status := "returned", return_date := isoformat now }
        let newBooks := if record.borrow_date = "" then s.books else
          updateFirst (fun b => b.id = record.book_id)
            (fun b => { b with available_copies := b.available_copies + 1 }) s.books
        ({ s with
            books := newBooks,
            records := updateFirst (fun r => r.id = borrow_id) upd s.records },
         ⟨"Book returned successfully", 200, some (upd record), none⟩)
    else
      (s, ⟨"Book is not currently borrowed or reserved", 400, none, none⟩)

/-- One mutating API call with its request data (the identity resolved by
the access-control layer is passed as `student_id`; `now` is the wall
clock at the time of the call). -/
inductive Op where
  | addBook (title author isbn publication_year : String) (total_copies : Int)
  | updateBook (book_id : Nat) (title author isbn publication_year : Option String)
      (total_copies : Option Int)
  | deleteBook (book_id : Nat)
  | borrowBook (now : DT) (student_id book_id : Nat)
  | reserveBook (student_id book_id : Nat)
  | cancelRes (now : DT) (student_id borrow_id : Nat)
  | returnBook (now : DT) (borrow_id : Nat)

/-- State reached after one mutating operation. -/
def applyOp (s : LibState) (o : Op) : LibState :=
  match o with
  | .addBook t a i p tc => (add_book t a i p tc s).1
  | .updateBook bid t a i p tc => (update_book bid t a i p tc s).1
  | .deleteBook bid => (delete_book bid s).1
  | .borrowBook now sid bid => (borrow_book now sid bid s).1
  | .reserveBook sid bid => (reserve_book sid bid s).1
  | .cancelRes now sid rid => (cancel_reservation now sid rid s).1
  | .returnBook now rid => (return_book now rid s).1

/-- Fresh install: empty books and borrowing-records tables.  Users are
irrelevant to the tables the claims speak about (no modelled operation
reads or writes them), so any user table is allowed initially. -/
def initState (u : List User) : LibState := ⟨u, [], []⟩

def runOps (u : List User) (ops : List Op) : LibState :=
  ops.foldl applyOp (initState u)

/-- A state of the books/records tables produced by a sequence of
mutating API calls from a fresh install. -/
def Reachable (s : LibState) : Prop := ∃ u ops, s = runOps u ops

/-- Claim C1's equation: availability is total copies minus currently
borrowed copies, for every book in the store. -/
def CopiesInv (s : LibState) : Prop :=
  ∀ b ∈ s.books, b.available_copies = b.total_copies - (borrowedCountBook s.records b.id : Int)

/-- Claim C2's invariant: at most one non-terminal record per
(student, book) pair. -/
def PairInv (s : LibState) : Prop :=
  ∀ sid bid, pairActiveCount s.records sid bid ≤ 1

/-- Claim C3's invariant: every student has at most 3 borrowed records. -/
def StudentLimitInv (s : LibState) : Prop :=
  ∀ sid, borrowedCountStudent s.records sid ≤ 3

/-- Borrowed records carry a borrow timestamp; reservations do not. -/
def DateShape (s : LibState) : Prop :=
  ∀ r ∈ s.records, (r.status = "borrowed" → ¬r.borrow_date = "") ∧
    (r.status = "reserved" → r.borrow_date = "")

/-- Every non-terminal record references a book present in the store. -/
def ActiveRef (s : LibState) : Prop :=
  ∀ r ∈ s.records, (r.status = "borrowed" ∨ r.status = "reserved") →
    ∃ b ∈ s.books, b.id = r.book_id

/-- Book ids are pairwise distinct. -/
def BooksNodup (s : LibState) : Prop := (s.books.map (fun b => b.id)).Nodup

/-- The inductive well-formedness invariant of reachable states. -/
def Wf (s : LibState) : Prop :=
  BooksNodup s ∧ CopiesInv s ∧ PairInv s ∧ StudentLimitInv s ∧ DateShape s ∧ ActiveRef s

/-! ### Helper lemmas about the list primitives -/

theorem updateFirst_of_forall_false {p : α → Bool} {f : α → α} :
    ∀ {l : List α}, (∀ x ∈ l, p x = false) → updateFirst p f l = l
  | [], _ => rfl
  | x :: xs, h => by
    have hx : p x = false := h x (by simp)
    simp only [updateFirst, hx, Bool.false_eq_true, if_false, List.cons.injEq, true_and]
    exact updateFirst_of_forall_false fun y hy => h y (by simp [hy])

theorem updateFirst_append_forall_false {p : α → Bool} {f : α → α} {l1 : List α}
    (l2 : List α) (h : ∀ x ∈ l1, p x = false) :
    updateFirst p f (l1 ++ l2) = l1 ++ updateFirst p f l2 := by
  induction l1 with
  | nil => simp
  | cons x xs ih =>
    have hx : p x = false := h x (by simp)
    simp only [List.cons_append, updateFirst, hx, Bool.false_eq_true, if_false,
      List.cons.injEq, true_and]
    exact ih fun y hy => h y (by simp [hy])

theorem removeFirst_append_forall_false {p : α → Bool} {l1 : List α}
    (l2 : List α) (h : ∀ x ∈ l1, p x = false) :
    removeFirst p (l1 ++ l2) = l1 ++ removeFirst p l2 := by
  induction l1 with
  | nil => simp
  | cons x xs ih =>
    have hx : p x = false := h x (by simp)
    simp only [List.cons_append, removeFirst, hx, Bool.false_eq_true, if_false,
      List.cons.injEq, true_and]
    exact ih fun y hy => h y (by simp [hy])

theorem find_append_forall_false {p : α → Bool} {l1 : List α}
    (l2 : List α) (h : ∀ x ∈ l1, p x = false) :
    (l1 ++ l2).find? p = l2.find? p := by
  induction l1 with
  | nil => simp
  | cons x xs ih =>
    have hx : p x = false := h x (by simp)
    rw [List.cons_append, List.find?_cons_of_neg _ (by simp [hx])]
    exact ih fun y hy => h y (by simp [hy])

/-- The first element found by `find?` splits the list into a prefix on
which the predicate fails, the element, and a suffix. -/
theorem find_some_split {p : α → Bool} :
    ∀ {l : List α} {a : α}, l.find? p = some a →
      ∃ l1 l2, l = l1 ++ a :: l2 ∧ (∀ x ∈ l1, p x = false) ∧ p a = true := by
  intro l
  induction l with
  | nil => intro a h; simp at h
  | cons x xs ih =>
    intro a h
    by_cases hx : p x = true
    · rw [List.find?_cons_of_pos _ hx] at h
      obtain rfl : x = a := by injection h
      exact ⟨[], xs, by simp, by simp, hx⟩
    · rw [List.find?_cons_of_neg _ hx] at h
      obtain ⟨l1, l2, rfl, hl1, ha⟩ := ih h
      exact ⟨x :: l1, l2, by simp, by
        intro y hy
        rcases List.mem_cons.mp hy with rfl | hy2
        · exact Bool.eq_false_iff.mpr hx
        · exact hl1 y hy2, ha⟩

/-- Positional semantics of `updateFirst` at a found element. -/
theorem updateFirst_split {p : α → Bool} (f : α → α) {l : List α} {a : α}
    (h : l.find? p = some a) :
    ∃ l1 l2, l = l1 ++ a :: l2 ∧ (∀ x ∈ l1, p x = false) ∧ p a = true ∧
      updateFirst p f l = l1 ++ f a :: l2 := by
  obtain ⟨l1, l2, rfl, hl1, ha⟩ := find_some_split h
  refine ⟨l1, l2, rfl, hl1, ha, ?_⟩
  rw [updateFirst_append_forall_false _ hl1]
  simp [updateFirst, ha]

/-- Positional semantics of `removeFirst` at a found element. -/
theorem removeFirst_split {p : α → Bool} {l : List α} {a : α}
    (h : l.find? p = some a) :
    ∃ l1 l2, l = l1 ++ a :: l2 ∧ (∀ x ∈ l1, p x = false) ∧ p a = true ∧
      removeFirst p l = l1 ++ l2 := by
  obtain ⟨l1, l2, rfl, hl1, ha⟩ := find_some_split h
  refine ⟨l1, l2, rfl, hl1, ha, ?_⟩
  rw [removeFirst_append_forall_false _ hl1]
  simp [removeFirst, ha]

/-- Length of a filter over a list split around one element. -/
theorem length_filter_append_cons (q : α → Bool) (l1 l2 : List α) (a : α) :
    ((l1 ++ a :: l2).filter q).length =
      (l1.filter q).length + ((if q a = true then 1 else 0) + (l2.filter q).length) := by
  rw [List.filter_append, List.filter_cons, List.length_append]
  split <;> simp <;> omega

theorem length_filter_append_singleton (q : α → Bool) (l : List α) (a : α) :
    ((l ++ [a]).filter q).length =
      (l.filter q).length + (if q a = true then 1 else 0) := by
  rw [List.filter_append, List.length_append, List.filter_cons]
  split <;> simp

theorem borrowedCountBook_append (rs : List BorrowingRecord) (nr : BorrowingRecord)
    (bid : Nat) :
    borrowedCountBook (rs ++ [nr]) bid = borrowedCountBook rs bid +
      (if nr.book_id = bid ∧ nr.status = "borrowed" then 1 else 0) := by
  unfold borrowedCountBook
  rw [length_filter_append_singleton]
  by_cases h : nr.book_id = bid ∧ nr.status = "borrowed"
  · simp [h]
  · simp [h]

theorem borrowedCountStudent_append (rs : List BorrowingRecord) (nr : BorrowingRecord)
    (sid : Nat) :
    borrowedCountStudent (rs ++ [nr]) sid = borrowedCountStudent rs sid +
      (if nr.student_id = sid ∧ nr.status = "borrowed" then 1 else 0) := by
  unfold borrowedCountStudent
  rw [length_filter_append_singleton]
  by_cases h : nr.student_id = sid ∧ nr.status = "borrowed"
  · simp [h]
  · simp [h]

theorem pairActiveCount_append (rs : List BorrowingRecord) (nr : BorrowingRecord)
    (sid bid : Nat) :
    pairActiveCount (rs ++ [nr]) sid bid = pairActiveCount rs sid bid +
      (if nr.student_id = sid ∧ nr.book_id = bid ∧
        (nr.status = "borrowed" ∨ nr.status = "reserved") then 1 else 0) := by
  unfold pairActiveCount
  rw [length_filter_append_singleton]
  by_cases h : nr.student_id = sid ∧ nr.book_id = bid ∧
      (nr.status = "borrowed" ∨ nr.status = "reserved")
  · simp [pairActive, h]
  · have hf : pairActive sid bid nr = false := by
      unfold pairActive
      exact decide_eq_false h
    rw [hf, if_neg h]
    simp

theorem length_filter_middle_eq {q : α → Bool} {a b : α} (l1 l2 : List α)
    (h : q b = q a) :
    ((l1 ++ b :: l2).filter q).length = ((l1 ++ a :: l2).filter q).length := by
  rw [length_filter_append_cons, length_filter_append_cons, h]

theorem length_filter_middle_le {q : α → Bool} {a b : α} (l1 l2 : List α)
    (h : q b = true → q a = true) :
    ((l1 ++ b :: l2).filter q).length ≤ ((l1 ++ a :: l2).filter q).length := by
  rw [length_filter_append_cons, length_filter_append_cons]
  have : (if q b = true then 1 else 0) ≤ (if q a = true then 1 else 0) := by
    by_cases hb : q b = true
    · simp [hb, h hb]
    · simp [hb]
  omega

theorem length_filter_middle_succ {q : α → Bool} {a b : α} (l1 l2 : List α)
    (ha : q a = false) (hb : q b = true) :
    ((l1 ++ b :: l2).filter q).length = ((l1 ++ a :: l2).filter q).length + 1 := by
  rw [length_filter_append_cons, length_filter_append_cons, ha, hb]
  simp only [if_true, Bool.false_eq_true, if_false]
  omega

theorem length_filter_middle_pred {q : α → Bool} {a b : α} (l1 l2 : List α)
    (ha : q a = true) (hb : q b = false) :
    ((l1 ++ a :: l2).filter q).length = ((l1 ++ b :: l2).filter q).length + 1 := by
  rw [length_filter_append_cons, length_filter_append_cons, ha, hb]
  simp only [if_true, Bool.false_eq_true, if_false]
  omega

/-! ### Facts about `_get_next_id` -/

theorem init_le_foldl_max : ∀ (l : List Nat) (a : Nat), a ≤ l.foldl Nat.max a := by
  intro l
  induction l with
  | nil => intro a; simp
  | cons x xs ih =>
    intro a
    calc a ≤ Nat.max a x := Nat.le_max_left a x
    _ ≤ xs.foldl Nat.max (Nat.max a x) := ih _

theorem mem_le_foldl_max : ∀ {l : List Nat} {x : Nat}, x ∈ l → ∀ a, x ≤ l.foldl Nat.max a := by
  intro l
  induction l with
  | nil => intro x h; simp at h
  | cons y ys ih =>
    intro x h a
    rcases List.mem_cons.mp h with rfl | h2
    · calc x ≤ Nat.max a x := Nat.le_max_right a x
      _ ≤ ys.foldl Nat.max (Nat.max a x) := init_le_foldl_max ys _
    · exact ih h2 _

theorem mem_lt_get_next_id {l : List Nat} {x : Nat} (h : x ∈ l) : x < get_next_id l := by
  cases l with
  | nil => simp at h
  | cons y ys =>
    have hx : x ≤ (y :: ys).foldl Nat.max 0 := mem_le_foldl_max h 0
    have : get_next_id (y :: ys) = (y :: ys).foldl Nat.max 0 + 1 := rfl
    omega

/-! ### `isoformat` never produces the null timestamp -/

theorem isoformat_ne_empty (d : DT) : ¬ isoformat d = "" := by
  intro h
  have hlen := congrArg String.length h
  rw [isoformat] at hlen
  simp only [String.length_append] at hlen
  have hT : ("T" : String).length = 1 := rfl
  rw [hT] at hlen
  simp at hlen

theorem pairActive_congr {r r2 : BorrowingRecord} (hs : r2.student_id = r.student_id)
    (hb : r2.book_id = r.book_id)
    (ha : (r2.status = "borrowed" ∨ r2.status = "reserved") ↔
      (r.status = "borrowed" ∨ r.status = "reserved"))
    (sid bid : Nat) : pairActive sid bid r2 = pairActive sid bid r := by
  unfold pairActive
  rw [decide_eq_decide, hs, hb]
  exact and_congr_right fun _ => and_congr_right fun _ => ha

/-! ### Preservation of the well-formedness invariant -/

theorem wf_initState (u : List User) : Wf (initState u) := by
  refine ⟨by simp [BooksNodup, initState], ?_, ?_, ?_, ?_, ?_⟩
  · intro b hb; simp [initState] at hb
  · intro sid bid; simp [pairActiveCount, initState]
  · intro sid; simp [borrowedCountStudent, initState]
  · intro r hr; simp [initState] at hr
  · intro r hr; simp [initState] at hr

theorem wf_reserve_book (sid bid : Nat) {s : LibState} (h : Wf s) :
    Wf (reserve_book sid bid s).1 := by
  obtain ⟨hnd, hcop, hpair, hlim, hdate, href⟩ := h
  unfold reserve_book
  cases hfb : s.books.find? (fun b => b.id = bid) with
  | none => exact ⟨hnd, hcop, hpair, hlim, hdate, href⟩
  | some book =>
    cases hfr : s.records.find? (pairActive sid bid) with
    | some er => exact ⟨hnd, hcop, hpair, hlim, hdate, href⟩
    | none =>
      have hbook_mem : book ∈ s.books := List.mem_of_find?_eq_some hfb
      have hbook_id : book.id = bid := by
        have := List.find?_some hfb
        simpa using this
      have hnone : ∀ r ∈ s.records, ¬ pairActive sid bid r = true :=
        List.find?_eq_none.mp hfr
      set nr : BorrowingRecord :=
        ⟨get_next_id (s.records.map (fun r => r.id)), sid, bid, "", "", "", "reserved"⟩ with hnr
      refine ⟨hnd, ?_, ?_, ?_, ?_, ?_⟩
      · intro b hb
        have := hcop b hb
        have hcnt : borrowedCountBook (s.records ++ [nr]) b.id =
            borrowedCountBook s.records b.id := by
          unfold borrowedCountBook
          rw [length_filter_append_singleton]
          have : (decide (nr.book_id = b.id ∧ nr.status = "borrowed")) = false := by
            simp [hnr]
          simp [this]
        simpa [hcnt] using this
      · intro sid2 bid2
        unfold pairActiveCount
        rw [length_filter_append_singleton]
        by_cases hp : sid2 = sid ∧ bid2 = bid
        · obtain ⟨rfl, rfl⟩ := hp
          have hzero : (s.records.filter (pairActive sid2 bid2)).length = 0 := by
            rw [List.length_eq_zero, List.filter_eq_nil_iff]
            exact hnone
          have : pairActive sid2 bid2 nr = true := by simp [pairActive, hnr]
          simp [this, hzero, pairActiveCount]
        · have hfalse : pairActive sid2 bid2 nr = false := by
            simp [pairActive, hnr]
            omega
          have := hpair sid2 bid2
          unfold pairActiveCount at this
          simp only [hfalse, Bool.false_eq_true, if_false, add_zero]
          exact this
      · intro sid2
        have := hlim sid2
        unfold borrowedCountStudent at this ⊢
        rw [length_filter_append_singleton]
        have hfalse : (decide (nr.student_id = sid2 ∧ nr.status = "borrowed")) = false := by
          simp [hnr]
        simp only [hfalse, Bool.false_eq_true, if_false, add_zero]
        exact this
      · intro r hr
        rcases List.mem_append.mp hr with hold | hnew
        · exact hdate r hold
        · have : r = nr := by simpa using hnew
          subst this
          constructor
          · intro hst; simp [hnr] at hst
          · intro _; simp [hnr]
      · intro r hr hact
        rcases List.mem_append.mp hr with hold | hnew
        · exact href r hold hact
        · have : r = nr := by simpa using hnew
          subst this
          exact ⟨book, hbook_mem, by simp [hnr, hbook_id]⟩

theorem wf_cancel_reservation (now : DT) (sid rid : Nat) {s : LibState} (h : Wf s) :
    Wf (cancel_reservation now sid rid s).1 := by
  obtain ⟨hnd, hcop, hpair, hlim, hdate, href⟩ := h
  unfold cancel_reservation
  cases hfr : s.records.find? (fun r => r.id = rid ∧ r.student_id = sid) with
  | none => exact ⟨hnd, hcop, hpair, hlim, hdate, href⟩
  | some record =>
    by_cases hst : record.status = "reserved"
    · simp only [hst, if_true]
      obtain ⟨r1, r2, hsplit, hr1, hprec, hupd⟩ :=
        updateFirst_split (fun r =>
          { r with status := "cancelled", return_date := isoformat now }) hfr
      rw [hupd]
      set rec2 : BorrowingRecord :=
        { record with status := "cancelled", return_date := isoformat now } with hrec2
      refine ⟨hnd, ?_, ?_, ?_, ?_, ?_⟩
      · intro b hb
        have := hcop b hb
        rw [hsplit] at this
        have hcnt : borrowedCountBook (r1 ++ rec2 :: r2) b.id =
            borrowedCountBook (r1 ++ record :: r2) b.id := by
          unfold borrowedCountBook
          exact length_filter_middle_eq r1 r2 (by simp [hrec2, hst])
        simpa [hcnt] using this
      · intro sid2 bid2
        have := hpair sid2 bid2
        rw [hsplit] at this
        unfold pairActiveCount at this ⊢
        calc ((r1 ++ rec2 :: r2).filter (pairActive sid2 bid2)).length ≤
            ((r1 ++ record :: r2).filter (pairActive sid2 bid2)).length := by
              refine length_filter_middle_le r1 r2 ?_
              intro hb
              simp [pairActive, hrec2] at hb
          _ ≤ 1 := this
      · intro sid2
        have := hlim sid2
        rw [hsplit] at this
        unfold borrowedCountStudent at this ⊢
        calc ((r1 ++ rec2 :: r2).filter
              (fun r => r.student_id = sid2 ∧ r.status = "borrowed")).length ≤
            ((r1 ++ record :: r2).filter
              (fun r => r.student_id = sid2 ∧ r.status = "borrowed")).length := by
              refine length_filter_middle_le r1 r2 ?_
              intro hb
              simp [hrec2] at hb
          _ ≤ 3 := this
      · intro r hr
        simp only [List.mem_append, List.mem_cons] at hr
        rcases hr with h1 | h2 | h3
        · exact hdate r (by rw [hsplit]; simp [h1])
        · subst h2
          constructor
          · intro hc; simp [hrec2] at hc
          · intro hc; simp [hrec2] at hc
        · exact hdate r (by rw [hsplit]; simp [h3])
      · intro r hr hact
        simp only [List.mem_append, List.mem_cons] at hr
        rcases hr with h1 | h2 | h3
        · exact href r (by rw [hsplit]; simp [h1]) hact
        · subst h2
          simp [hrec2] at hact
        · exact href r (by rw [hsplit]; simp [h3]) hact
    · simp only [hst, if_false]
      exact ⟨hnd, hcop, hpair, hlim, hdate, href⟩

theorem wf_return_book (now : DT) (rid : Nat) {s : LibState} (h : Wf s) :
    Wf (return_book now rid s).1 := by
  obtain ⟨hnd, hcop, hpair, hlim, hdate, href⟩ := h
  unfold return_book
  cases hfr : s.records.find? (fun r => r.id = rid) with
  | none => exact ⟨hnd, hcop, hpair, hlim, hdate, href⟩
  | some record =>
    dsimp only
    by_cases hst : record.status = "borrowed" ∨ record.status = "reserved"
    · rw [if_pos hst]
      cases hfbook : s.books.find? (fun b => b.id = record.book_id) with
      | none => exact ⟨hnd, hcop, hpair, hlim, hdate, href⟩
      | some bk =>
        obtain ⟨r1, r2, hsplit, hr1, hprec, hupd⟩ :=
          updateFirst_split (fun r =>
            { r with status := "returned", return_date := isoformat now }) hfr
        rw [hupd]
        set rec2 : BorrowingRecord :=
          { record with status := "returned", return_date := isoformat now } with hrec2
        have hrecmem : record ∈ s.records := by rw [hsplit]; simp
        have hbkid : bk.id = record.book_id := by
          have := List.find?_some hfbook
          simpa using this
        have hrecords_pair : ∀ sid2 bid2,
            pairActiveCount (r1 ++ rec2 :: r2) sid2 bid2 ≤ 1 := by
          intro sid2 bid2
          have := hpair sid2 bid2
          rw [hsplit] at this
          unfold pairActiveCount at this ⊢
          calc ((r1 ++ rec2 :: r2).filter (pairActive sid2 bid2)).length ≤
              ((r1 ++ record :: r2).filter (pairActive sid2 bid2)).length := by
                refine length_filter_middle_le r1 r2 ?_
                intro hb
                simp [pairActive, hrec2] at hb
            _ ≤ 1 := this
        have hrecords_lim : ∀ sid2,
            borrowedCountStudent (r1 ++ rec2 :: r2) sid2 ≤ 3 := by
          intro sid2
          have := hlim sid2
          rw [hsplit] at this
          unfold borrowedCountStudent at this ⊢
          calc ((r1 ++ rec2 :: r2).filter
                (fun r => r.student_id = sid2 ∧ r.status = "borrowed")).length ≤
              ((r1 ++ record :: r2).filter
                (fun r => r.student_id = sid2 ∧ r.status = "borrowed")).length := by
                refine length_filter_middle_le r1 r2 ?_
                intro hb
                simp [hrec2] at hb
            _ ≤ 3 := this
        have hrecords_date : ∀ r ∈ r1 ++ rec2 :: r2,
            (r.status = "borrowed" → ¬r.borrow_date = "") ∧
            (r.status = "reserved" → r.borrow_date = "") := by
          intro r hr
          simp only [List.mem_append, List.mem_cons] at hr
          rcases hr with h1 | h2 | h3
          · exact hdate r (by rw [hsplit]; simp [h1])
          · subst h2
            constructor
            · intro hc; simp [hrec2] at hc
            · intro hc; simp [hrec2] at hc
          · exact hdate r (by rw [hsplit]; simp [h3])
        by_cases hbd : record.borrow_date = ""
        · rw [if_pos hbd]
          have hres : record.status = "reserved" := by
            rcases hst with hb | hr
            · exact absurd hbd ((hdate record hrecmem).1 hb)
            · exact hr
          refine ⟨hnd, ?_, hrecords_pair, hrecords_lim, hrecords_date, ?_⟩
          · intro b hb
            have := hcop b hb
            rw [hsplit] at this
            have hcnt : borrowedCountBook (r1 ++ rec2 :: r2) b.id =
                borrowedCountBook (r1 ++ record :: r2) b.id := by
              unfold borrowedCountBook
              refine length_filter_middle_eq r1 r2 ?_
              have h1 : (decide (rec2.book_id = b.id ∧ rec2.status = "borrowed")) = false := by
                simp [hrec2]
              have h2 : (decide (record.book_id = b.id ∧ record.status = "borrowed")) = false := by
                simp [hres]
              simp only [h1, h2]
            simpa [hcnt] using this
          · intro r hr hact
            simp only [List.mem_append, List.mem_cons] at hr
            rcases hr with h1 | h2 | h3
            · exact href r (by rw [hsplit]; simp [h1]) hact
            · subst h2
              simp [hrec2] at hact
            · exact href r (by rw [hsplit]; simp [h3]) hact
        · rw [if_neg hbd]
          have hbor : record.status = "borrowed" := by
            rcases hst with hb | hr
            · exact hb
            · exact absurd ((hdate record hrecmem).2 hr) hbd
          obtain ⟨b1, b2, hbsplit, hb1, hbp, hbupd⟩ :=
            updateFirst_split (fun b =>
              { b with available_copies := b.available_copies + 1 }) hfbook
          rw [hbupd]
          set bk2 : Book := { bk with available_copies := bk.available_copies + 1 } with hbk2
          have hnd2 : ((b1 ++ bk :: b2).map (fun b => b.id)).Nodup := by
            rw [← hbsplit]; exact hnd
          rw [List.map_append, List.map_cons] at hnd2
          have hbk_not_b1 : bk.id ∉ b1.map (fun b => b.id) := fun hmem =>
            (List.nodup_append.mp hnd2).2.2 hmem (by simp)
          have hbk_not_b2 : bk.id ∉ b2.map (fun b => b.id) :=
            (List.nodup_cons.mp (List.nodup_append.mp hnd2).2.1).1
          refine ⟨?_, ?_, hrecords_pair, hrecords_lim, hrecords_date, ?_⟩
          · unfold BooksNodup
            have : (b1 ++ bk2 :: b2).map (fun b => b.id) =
                (b1 ++ bk :: b2).map (fun b => b.id) := by
              simp [hbk2]
            rw [this, ← hbsplit]
            exact hnd
          · intro b hb
            simp only [List.mem_append, List.mem_cons] at hb
            have hcnt_ne : ∀ bid2, ¬ bid2 = bk.id →
                borrowedCountBook (r1 ++ rec2 :: r2) bid2 =
                borrowedCountBook (r1 ++ record :: r2) bid2 := by
              intro bid2 hne
              unfold borrowedCountBook
              refine length_filter_middle_eq r1 r2 ?_
              have h1 : (decide (rec2.book_id = bid2 ∧ rec2.status = "borrowed")) = false := by
                simp [hrec2]
              have h2 : (decide (record.book_id = bid2 ∧ record.status = "borrowed")) = false := by
                simp
                intro hb2
                rw [← hbkid] at hb2
                exact absurd hb2.symm hne
              simp only [h1, h2]
            rcases hb with h1 | h2 | h3
            · have hbmem : b ∈ s.books := by rw [hbsplit]; simp [h1]
              have hne : ¬ b.id = bk.id := by
                intro hcontra
                exact hbk_not_b1 (hcontra ▸ List.mem_map_of_mem (fun b => b.id) h1)
              have := hcop b hbmem
              rw [hsplit] at this
              rw [hcnt_ne b.id hne]
              exact this
            · subst h2
              have := hcop bk (by rw [hbsplit]; simp)
              rw [hsplit] at this
              have hcnt : borrowedCountBook (r1 ++ record :: r2) bk.id =
                  borrowedCountBook (r1 ++ rec2 :: r2) bk.id + 1 := by
                unfold borrowedCountBook
                refine length_filter_middle_pred r1 r2 ?_ ?_
                · simp [hbor, ← hbkid]
                · simp [hrec2]
              rw [hcnt] at this
              show bk.available_copies + 1 =
                bk.total_copies - (borrowedCountBook (r1 ++ rec2 :: r2) bk.id : Int)
              push_cast at this ⊢
              omega
            · have hbmem : b ∈ s.books := by rw [hbsplit]; simp [h3]
              have hne : ¬ b.id = bk.id := by
                intro hcontra
                exact hbk_not_b2 (hcontra ▸ List.mem_map_of_mem (fun b => b.id) h3)
              have := hcop b hbmem
              rw [hsplit] at this
              rw [hcnt_ne b.id hne]
              exact this
          · intro r hr hact
            have hids : (b1 ++ bk2 :: b2).map (fun b => b.id) =
                s.books.map (fun b => b.id) := by
              rw [hbsplit]
              simp [hbk2]
            have hold : r ∈ s.records := by
              simp only [List.mem_append, List.mem_cons] at hr
              rcases hr with h1 | h2 | h3
              · rw [hsplit]; simp [h1]
              · subst h2; simp [hrec2] at hact
              · rw [hsplit]; simp [h3]
            obtain ⟨b, hbmem, hbid⟩ := href r hold hact
            have : b.id ∈ (b1 ++ bk2 :: b2).map (fun b => b.id) := by
              rw [hids]
              exact List.mem_map_of_mem (fun b => b.id) hbmem
            obtain ⟨b', hb'mem, hb'id⟩ := List.mem_map.mp this
            exact ⟨b', hb'mem, by rw [hb'id, hbid]⟩
    · rw [if_neg hst]
      exact ⟨hnd, hcop, hpair, hlim, hdate, href⟩

theorem wf_borrow_book (now : DT) (sid bid : Nat) {s : LibState} (h : Wf s) :
    Wf (borrow_book now sid bid s).1 := by
  obtain ⟨hnd, hcop, hpair, hlim, hdate, href⟩ := h
  unfold borrow_book
  cases hfb : s.books.find? (fun b => b.id = bid) with
  | none => exact ⟨hnd, hcop, hpair, hlim, hdate, href⟩
  | some book =>
    dsimp only
    by_cases hav : book.available_copies ≤ 0
    · rw [if_pos hav]
      exact ⟨hnd, hcop, hpair, hlim, hdate, href⟩
    · rw [if_neg hav]
      by_cases hcnt3 : 3 ≤ borrowedCountStudent s.records sid
      · rw [if_pos hcnt3]
        exact ⟨hnd, hcop, hpair, hlim, hdate, href⟩
      · rw [if_neg hcnt3]
        have hbookid : book.id = bid := by simpa using List.find?_some hfb
        obtain ⟨b1, b2, hbsplit, hb1, hbp, hbupd⟩ :=
          updateFirst_split (fun b =>
            { b with available_copies := b.available_copies - 1 }) hfb
        set book2 : Book := { book with available_copies := book.available_copies - 1 }
          with hbook2
        have hnd2 : ((b1 ++ book :: b2).map (fun b => b.id)).Nodup := by
          rw [← hbsplit]; exact hnd
        rw [List.map_append, List.map_cons] at hnd2
        have hbook_not_b1 : book.id ∉ b1.map (fun b => b.id) := fun hmem =>
          (List.nodup_append.mp hnd2).2.2 hmem (by simp)
        have hbook_not_b2 : book.id ∉ b2.map (fun b => b.id) :=
          (List.nodup_cons.mp (List.nodup_append.mp hnd2).2.1).1
        have hnd_books : ((b1 ++ book2 :: b2).map (fun b => b.id)).Nodup := by
          have : (b1 ++ book2 :: b2).map (fun b => b.id) =
              (b1 ++ book :: b2).map (fun b => b.id) := by
            simp [hbook2]
          rw [this, ← hbsplit]
          exact hnd
        have hids_eq : (b1 ++ book2 :: b2).map (fun b => b.id) =
            s.books.map (fun b => b.id) := by
          rw [hbsplit]
          simp [hbook2]
        cases hfr : s.records.find? (pairActive sid bid) with
        | some er =>
          dsimp only
          by_cases herb : er.status = "borrowed"
          · rw [if_pos herb]
            exact ⟨hnd, hcop, hpair, hlim, hdate, href⟩
          · rw [if_neg herb]
            have hpa : pairActive sid bid er = true := List.find?_some hfr
            have hpa2 : er.student_id = sid ∧ er.book_id = bid ∧
                (er.status = "borrowed" ∨ er.status = "reserved") := by
              simpa [pairActive] using hpa
            have hres : er.status = "reserved" := by
              rcases hpa2.2.2 with hx | hx
              · exact absurd hx herb
              · exact hx
            obtain ⟨r1, r2, hsplit, hr1, hprec, hupd⟩ :=
              updateFirst_split (fun r =>
                { r with status := "borrowed", borrow_date := isoformat now,
                         due_date := isoformat (calculate_due_date now 4) }) hfr
            rw [hupd, hbupd]
            set er2 : BorrowingRecord :=
              { er with status := "borrowed", borrow_date := isoformat now,
                        due_date := isoformat (calculate_due_date now 4) } with her2
            refine ⟨hnd_books, ?_, ?_, ?_, ?_, ?_⟩
            · intro b hb
              simp only [List.mem_append, List.mem_cons] at hb
              have hcnt_ne : ∀ bid2, ¬ bid2 = book.id →
                  borrowedCountBook (r1 ++ er2 :: r2) bid2 =
                  borrowedCountBook (r1 ++ er :: r2) bid2 := by
                intro bid2 hne
                unfold borrowedCountBook
                refine length_filter_middle_eq r1 r2 ?_
                have hb2 : ¬ er.book_id = bid2 := by
                  rw [hpa2.2.1]
                  omega
                simp [her2, hb2, hres]
              rcases hb with h1 | h2 | h3
              · have hne : ¬ b.id = book.id := by
                  intro hcontra
                  exact hbook_not_b1 (hcontra ▸ List.mem_map_of_mem (fun b => b.id) h1)
                have := hcop b (by rw [hbsplit]; simp [h1])
                rw [hsplit] at this
                rw [hcnt_ne b.id hne]
                exact this
              · subst h2
                have := hcop book (by rw [hbsplit]; simp)
                rw [hsplit] at this
                have hcnt : borrowedCountBook (r1 ++ er2 :: r2) book.id =
                    borrowedCountBook (r1 ++ er :: r2) book.id + 1 := by
                  unfold borrowedCountBook
                  refine length_filter_middle_succ r1 r2 ?_ ?_
                  · simp [hres]
                  · simp [her2, hpa2.2.1, hbookid]
                show book.available_copies - 1 =
                  book.total_copies - (borrowedCountBook (r1 ++ er2 :: r2) book.id : Int)
                rw [hcnt]
                push_cast
                omega
              · have hne : ¬ b.id = book.id := by
                  intro hcontra
                  exact hbook_not_b2 (hcontra ▸ List.mem_map_of_mem (fun b => b.id) h3)
                have := hcop b (by rw [hbsplit]; simp [h3])
                rw [hsplit] at this
                rw [hcnt_ne b.id hne]
                exact this
            · intro sid2 bid2
              show pairActiveCount (r1 ++ er2 :: r2) sid2 bid2 ≤ 1
              have := hpair sid2 bid2
              rw [hsplit] at this
              unfold pairActiveCount at this ⊢
              have hq : pairActive sid2 bid2 er2 = pairActive sid2 bid2 er :=
                pairActive_congr (by simp [her2]) (by simp [her2])
                  (by simp [her2, hres]) sid2 bid2
              rw [length_filter_middle_eq r1 r2 hq]
              exact this
            · intro sid2
              show borrowedCountStudent (r1 ++ er2 :: r2) sid2 ≤ 3
              unfold borrowedCountStudent
              by_cases hsid : sid2 = sid
              · subst hsid
                have hlt : borrowedCountStudent s.records sid2 ≤ 2 := by omega
                rw [hsplit] at hlt
                unfold borrowedCountStudent at hlt
                have hstep : ((r1 ++ er2 :: r2).filter
                    (fun r => r.student_id = sid2 ∧ r.status = "borrowed")).length =
                    ((r1 ++ er :: r2).filter
                      (fun r => r.student_id = sid2 ∧ r.status = "borrowed")).length + 1 := by
                  refine length_filter_middle_succ r1 r2 ?_ ?_
                  · simp [hres]
                  · simp [her2, hpa2.1]
                omega
              · have := hlim sid2
                rw [hsplit] at this
                unfold borrowedCountStudent at this
                have hs2 : ¬ er.student_id = sid2 := by
                  rw [hpa2.1]
                  omega
                have hstep : ((r1 ++ er2 :: r2).filter
                    (fun r => r.student_id = sid2 ∧ r.status = "borrowed")).length =
                    ((r1 ++ er :: r2).filter
                      (fun r => r.student_id = sid2 ∧ r.status = "borrowed")).length := by
                  refine length_filter_middle_eq r1 r2 ?_
                  simp [her2, hs2]
                omega
            · intro r hr
              simp only [List.mem_append, List.mem_cons] at hr
              rcases hr with h1 | h2 | h3
              · exact hdate r (by rw [hsplit]; simp [h1])
              · subst h2
                constructor
                · intro _
                  simp [her2]
                  exact isoformat_ne_empty now
                · intro hc; simp [her2] at hc
              · exact hdate r (by rw [hsplit]; simp [h3])
            · intro r hr hact
              have hold : r ∈ s.records ∨ r = er2 := by
                simp only [List.mem_append, List.mem_cons] at hr
                rcases hr with h1 | h2 | h3
                · exact Or.inl (by rw [hsplit]; simp [h1])
                · exact Or.inr h2
                · exact Or.inl (by rw [hsplit]; simp [h3])
              have transfer : ∀ bid2, (∃ b ∈ s.books, b.id = bid2) →
                  ∃ b ∈ b1 ++ book2 :: b2, b.id = bid2 := by
                intro bid2 ⟨b, hbmem, hbid2⟩
                have : b.id ∈ (b1 ++ book2 :: b2).map (fun b => b.id) := by
                  rw [hids_eq]
                  exact List.mem_map_of_mem (fun b => b.id) hbmem
                obtain ⟨b', hb'mem, hb'id⟩ := List.mem_map.mp this
                exact ⟨b', hb'mem, by rw [hb'id, hbid2]⟩
              rcases hold with h1 | h2
              · exact transfer r.book_id (href r h1 hact)
              · subst h2
                refine transfer er2.book_id ⟨book, List.mem_of_find?_eq_some hfb, ?_⟩
                simp [her2, hpa2.2.1, hbookid]
        | none =>
          dsimp only
          rw [hbupd]
          have hnone : ∀ r ∈ s.records, ¬ pairActive sid bid r = true :=
            List.find?_eq_none.mp hfr
          set nr : BorrowingRecord :=
            ⟨get_next_id (s.records.map (fun r => r.id)), sid, bid, isoformat now,
             isoformat (calculate_due_date now 4), "", "borrowed"⟩ with hnr
          refine ⟨hnd_books, ?_, ?_, ?_, ?_, ?_⟩
          · intro b hb
            simp only [List.mem_append, List.mem_cons] at hb
            have hcnt_ne : ∀ bid2, ¬ bid2 = book.id →
                borrowedCountBook (s.records ++ [nr]) bid2 =
                borrowedCountBook s.records bid2 := by
              intro bid2 hne
              rw [borrowedCountBook_append]
              have h1 : ¬ (nr.book_id = bid2 ∧ nr.status = "borrowed") := by
                rintro ⟨hb2, -⟩
                rw [hnr] at hb2
                simp at hb2
                omega
              rw [if_neg h1, add_zero]
            rcases hb with h1 | h2 | h3
            · have hne : ¬ b.id = book.id := by
                intro hcontra
                exact hbook_not_b1 (hcontra ▸ List.mem_map_of_mem (fun b => b.id) h1)
              rw [hcnt_ne b.id hne]
              exact hcop b (by rw [hbsplit]; simp [h1])
            · subst h2
              have := hcop book (by rw [hbsplit]; simp)
              have hcnt : borrowedCountBook (s.records ++ [nr]) book.id =
                  borrowedCountBook s.records book.id + 1 := by
                rw [borrowedCountBook_append]
                rw [if_pos ⟨by rw [hnr]; exact hbookid.symm, by rw [hnr]⟩]
              show book.available_copies - 1 =
                book.total_copies - (borrowedCountBook (s.records ++ [nr]) book.id : Int)
              rw [hcnt]
              push_cast
              omega
            · have hne : ¬ b.id = book.id := by
                intro hcontra
                exact hbook_not_b2 (hcontra ▸ List.mem_map_of_mem (fun b => b.id) h3)
              rw [hcnt_ne b.id hne]
              exact hcop b (by rw [hbsplit]; simp [h3])
          · intro sid2 bid2
            unfold pairActiveCount
            rw [length_filter_append_singleton]
            by_cases hp : sid2 = sid ∧ bid2 = bid
            · obtain ⟨rfl, rfl⟩ := hp
              have hzero : (s.records.filter (pairActive sid2 bid2)).length = 0 := by
                rw [List.length_eq_zero, List.filter_eq_nil_iff]
                exact hnone
              have hone : pairActive sid2 bid2 nr = true := by simp [pairActive, hnr]
              simp [hone, hzero]
            · have hfalse : pairActive sid2 bid2 nr = false := by
                simp [pairActive, hnr]
                omega
              have := hpair sid2 bid2
              unfold pairActiveCount at this
              simp only [hfalse, Bool.false_eq_true, if_false, add_zero]
              exact this
          · intro sid2
            show borrowedCountStudent (s.records ++ [nr]) sid2 ≤ 3
            rw [borrowedCountStudent_append]
            by_cases hsid : sid2 = sid
            · subst hsid
              have hlt : borrowedCountStudent s.records sid2 ≤ 2 := by omega
              have hone : nr.student_id = sid2 ∧ nr.status = "borrowed" := by
                rw [hnr]
                exact ⟨rfl, rfl⟩
              rw [if_pos hone]
              omega
            · have hz : ¬ (nr.student_id = sid2 ∧ nr.status = "borrowed") := by
                rintro ⟨hb2, -⟩
                rw [hnr] at hb2
                simp at hb2
                omega
              rw [if_neg hz, add_zero]
              exact hlim sid2
          · intro r hr
            rcases List.mem_append.mp hr with hold | hnew
            · exact hdate r hold
            · have : r = nr := by simpa using hnew
              subst this
              constructor
              · intro _
                simp [hnr]
                exact isoformat_ne_empty now
              · intro hc; simp [hnr] at hc
          · intro r hr hact
            have transfer : ∀ bid2, (∃ b ∈ s.books, b.id = bid2) →
                ∃ b ∈ b1 ++ book2 :: b2, b.id = bid2 := by
              intro bid2 ⟨b, hbmem, hbid2⟩
              have : b.id ∈ (b1 ++ book2 :: b2).map (fun b => b.id) := by
                rw [hids_eq]
                exact List.mem_map_of_mem (fun b => b.id) hbmem
              obtain ⟨b', hb'mem, hb'id⟩ := List.mem_map.mp this
              exact ⟨b', hb'mem, by rw [hb'id, hbid2]⟩
            rcases List.mem_append.mp hr with hold | hnew
            · exact transfer r.book_id (href r hold hact)
            · have : r = nr := by simpa using hnew
              subst this
              refine transfer nr.book_id ⟨book, List.mem_of_find?_eq_some hfb, ?_⟩
              simp [hnr, hbookid]

theorem wf_add_book (t a i p : String) (tc : Int) {s : LibState} (h : Wf s) :
    Wf (add_book t a i p tc s).1 := by
  obtain ⟨hnd, hcop, hpair, hlim, hdate, href⟩ := h
  unfold add_book
  by_cases h1 : t = "" ∨ a = "" ∨ i = ""
  · rw [if_pos h1]
    exact ⟨hnd, hcop, hpair, hlim, hdate, href⟩
  · rw [if_neg h1]
    by_cases h2 : s.books.any (fun b => b.isbn = i) = true
    · rw [if_pos h2]
      exact ⟨hnd, hcop, hpair, hlim, hdate, href⟩
    · rw [if_neg h2]
      dsimp only
      set nb : Book :=
        ⟨get_next_id (s.books.map (fun b => b.id)), t, a, i, p, tc, tc⟩ with hnb
      have hfresh : ∀ b ∈ s.books, b.id < nb.id := by
        intro b hb
        show b.id < get_next_id (s.books.map (fun b => b.id))
        exact mem_lt_get_next_id (List.mem_map_of_mem (fun b => b.id) hb)
      refine ⟨?_, ?_, hpair, hlim, hdate, ?_⟩
      · unfold BooksNodup
        show ((s.books ++ [nb]).map (fun b => b.id)).Nodup
        rw [List.map_append, List.nodup_append]
        refine ⟨hnd, by simp, ?_⟩
        intro x hx hx2
        have hlt : x < get_next_id (s.books.map (fun b => b.id)) := mem_lt_get_next_id hx
        simp [hnb] at hx2
        omega
      · intro b hb
        have hb2 : b ∈ s.books ++ [nb] := hb
        rcases List.mem_append.mp hb2 with hold | hnew
        · show b.available_copies = b.total_copies - (borrowedCountBook s.records b.id : Int)
          exact hcop b hold
        · have hbeq : b = nb := by simpa using hnew
          subst hbeq
          have hzero : borrowedCountBook s.records nb.id = 0 := by
            unfold borrowedCountBook
            rw [List.length_eq_zero, List.filter_eq_nil_iff]
            intro r hr
            simp only [decide_eq_true_eq]
            rintro ⟨hbid, hst⟩
            obtain ⟨b', hb', hb'id⟩ := href r hr (Or.inl hst)
            have hlt : b'.id < nb.id := hfresh b' hb'
            rw [hb'id, hbid] at hlt
            exact absurd hlt (lt_irrefl _)
          show nb.available_copies = nb.total_copies - (borrowedCountBook s.records nb.id : Int)
          rw [hzero]
          show (tc : Int) = tc - ((0 : Nat) : Int)
          simp
      · intro r hr hact
        obtain ⟨b, hb, hbid⟩ := href r hr hact
        exact ⟨b, List.mem_append_left _ hb, hbid⟩

theorem wf_delete_book (bid : Nat) {s : LibState} (h : Wf s) :
    Wf (delete_book bid s).1 := by
  obtain ⟨hnd, hcop, hpair, hlim, hdate, href⟩ := h
  unfold delete_book
  cases hfb : s.books.find? (fun b => b.id = bid) with
  | none => exact ⟨hnd, hcop, hpair, hlim, hdate, href⟩
  | some book =>
    dsimp only
    by_cases hact : (s.records.filter (fun r => r.book_id = bid ∧
        (r.status = "borrowed" ∨ r.status = "reserved"))).isEmpty = true
    · rw [if_pos hact]
      obtain ⟨b1, b2, hbsplit, hb1, hbp, hbrem⟩ := removeFirst_split hfb
      rw [hbrem]
      have hbookid : book.id = bid := by simpa using hbp
      rw [List.isEmpty_iff] at hact
      have hnoact : ∀ r ∈ s.records, r.book_id = bid →
          ¬(r.status = "borrowed" ∨ r.status = "reserved") := by
        intro r hr hrb hrs
        have hmem : r ∈ s.records.filter (fun r => r.book_id = bid ∧
            (r.status = "borrowed" ∨ r.status = "reserved")) :=
          List.mem_filter.mpr ⟨hr, by simp [hrb, hrs]⟩
        rw [hact] at hmem
        simp at hmem
      refine ⟨?_, ?_, hpair, hlim, hdate, ?_⟩
      · unfold BooksNodup
        show ((b1 ++ b2).map (fun b => b.id)).Nodup
        have hsub : List.Sublist (b1 ++ b2) (b1 ++ book :: b2) :=
          (List.sublist_cons_self book b2).append_left b1
        refine List.Nodup.sublist (hsub.map (fun b => b.id)) ?_
        rw [← hbsplit]
        exact hnd
      · intro b hb
        have hb2 : b ∈ b1 ++ b2 := hb
        have hbmem : b ∈ s.books := by
          rw [hbsplit]
          rcases List.mem_append.mp hb2 with hm | hm
          · exact List.mem_append_left _ hm
          · exact List.mem_append_right _ (List.mem_cons_of_mem book hm)
        show b.available_copies = b.total_copies - (borrowedCountBook s.records b.id : Int)
        exact hcop b hbmem
      · intro r hr hact2
        obtain ⟨b, hbmem, hbid⟩ := href r hr hact2
        have hrb : ¬ r.book_id = bid := fun hcontra => hnoact r hr hcontra hact2
        rw [hbsplit] at hbmem
        simp only [List.mem_append, List.mem_cons] at hbmem
        rcases hbmem with h1 | h2 | h3
        · exact ⟨b, List.mem_append_left _ h1, hbid⟩
        · subst h2
          rw [hbid] at hbookid
          exact absurd hbookid hrb
        · exact ⟨b, List.mem_append_right _ h3, hbid⟩
    · rw [if_neg hact]
      exact ⟨hnd, hcop, hpair, hlim, hdate, href⟩

/-- Replacing the first book whose id matches by a book with the same id
whose copy counts satisfy the ledger equation preserves well-formedness
(the borrowing-records table is untouched). -/
theorem wf_set_book {s : LibState} {bid : Nat} {book bnew : Book} (h : Wf s)
    (hf : s.books.find? (fun b => b.id = bid) = some book)
    (hid : bnew.id = book.id)
    (heq : bnew.available_copies = bnew.total_copies -
      (borrowedCountBook s.records book.id : Int)) :
    Wf { s with books := updateFirst (fun b => b.id = bid) (fun _ => bnew) s.books } := by
  obtain ⟨hnd, hcop, hpair, hlim, hdate, href⟩ := h
  obtain ⟨b1, b2, hbsplit, hb1, hbp, hbupd⟩ := updateFirst_split (fun _ => bnew) hf
  rw [hbupd]
  have hids_eq : (b1 ++ bnew :: b2).map (fun b => b.id) =
      s.books.map (fun b => b.id) := by
    rw [hbsplit]
    simp [hid]
  refine ⟨?_, ?_, hpair, hlim, hdate, ?_⟩
  · unfold BooksNodup
    show ((b1 ++ bnew :: b2).map (fun b => b.id)).Nodup
    rw [hids_eq]
    exact hnd
  · intro b hb
    have hb2 : b ∈ b1 ++ bnew :: b2 := hb
    show b.available_copies = b.total_copies - (borrowedCountBook s.records b.id : Int)
    simp only [List.mem_append, List.mem_cons] at hb2
    rcases hb2 with h1 | h2 | h3
    · exact hcop b (by rw [hbsplit]; simp [h1])
    · subst h2
      rw [hid]
      exact heq
    · exact hcop b (by rw [hbsplit]; simp [h3])
  · intro r hr hact
    obtain ⟨b, hbmem, hbid⟩ := href r hr hact
    have : b.id ∈ (b1 ++ bnew :: b2).map (fun b => b.id) := by
      rw [hids_eq]
      exact List.mem_map_of_mem (fun b => b.id) hbmem
    obtain ⟨b', hb'mem, hb'id⟩ := List.mem_map.mp this
    exact ⟨b', hb'mem, by rw [hb'id, hbid]⟩

theorem wf_update_book (bid : Nat) (title author isbn pubyear : Option String)
    (tc : Option Int) {s : LibState} (h : Wf s) :
    Wf (update_book bid title author isbn pubyear tc s).1 := by
  unfold update_book
  cases hfb : s.books.find? (fun b => b.id = bid) with
  | none => exact h
  | some book =>
    dsimp only
    have hbmem : book ∈ s.books := List.mem_of_find?_eq_some hfb
    have hbookeq := h.2.1 book hbmem
    rcases title with _ | t <;> rcases author with _ | a2 <;>
      rcases isbn with _ | ni <;> rcases pubyear with _ | py <;>
      rcases tc with _ | nt <;> (try dsimp only) <;> (repeat' split)
    all_goals exact wf_set_book h hfb rfl (by (try dsimp only); omega)

theorem wf_applyOp (s : LibState) (o : Op) (h : Wf s) : Wf (applyOp s o) := by
  cases o with
  | addBook t a i p tc => exact wf_add_book t a i p tc h
  | updateBook bid t a i p tc => exact wf_update_book bid t a i p tc h
  | deleteBook bid => exact wf_delete_book bid h
  | borrowBook now sid bid => exact wf_borrow_book now sid bid h
  | reserveBook sid bid => exact wf_reserve_book sid bid h
  | cancelRes now sid rid => exact wf_cancel_reservation now sid rid h
  | returnBook now rid => exact wf_return_book now rid h

theorem wf_foldl (ops : List Op) : ∀ s, Wf s → Wf (ops.foldl applyOp s) := by
  induction ops with
  | nil => intro s hs; exact hs
  | cons o rest ih =>
    intro s hs
    exact ih _ (wf_applyOp s o hs)

/-- Every state reachable from a fresh install by API calls is
well-formed. -/
theorem wf_reachable {s : LibState} (h : Reachable s) : Wf s := by
  obtain ⟨u, ops, rfl⟩ := h
  exact wf_foldl ops _ (wf_initState u)

/-! ### The due-date walk, reduced to a pure function of the day count -/

/-- The day component of `dueLoop` (proofs only: the loop in the source
never reads the time-of-day fields). -/
def dueDay : Nat → Nat → Nat → Nat → Nat
  | 0, d, _, _ => d
  | fuel + 1, d, cnt, target =>
    let d2 := d + 1
    let cnt2 := if d2 % 7 < 5 then cnt + 1 else cnt
    if target ≤ cnt2 then d2 else dueDay fuel d2 cnt2 target

theorem dueLoop_eq_dueDay : ∀ (fuel : Nat) (c : DT) (cnt tgt : Nat),
    dueLoop fuel c cnt tgt = { c with day := dueDay fuel c.day cnt tgt } := by
  intro fuel
  induction fuel with
  | zero => intro c cnt tgt; rfl
  | succ n ih =>
    intro c cnt tgt
    unfold dueLoop dueDay
    simp only [addDays, is_working_day]
    by_cases hw : (c.day + 1) % 7 < 5
    · simp only [hw, decide_True, if_true]
      by_cases hb : tgt ≤ cnt + 1
      · simp [hb]
      · simp only [hb, if_false]
        exact ih { c with day := c.day + 1 } (cnt + 1) tgt
    · simp only [hw, decide_False, Bool.false_eq_true, if_false]
      by_cases hb : tgt ≤ cnt
      · simp [hb]
      · simp only [hb, if_false]
        exact ih { c with day := c.day + 1 } cnt tgt

theorem dueDay_shift : ∀ (fuel : Nat) (d cnt tgt : Nat),
    dueDay fuel (d + 7) cnt tgt = dueDay fuel d cnt tgt + 7 := by
  intro fuel
  induction fuel with
  | zero => intro d cnt tgt; rfl
  | succ n ih =>
    intro d cnt tgt
    unfold dueDay
    have hmod : (d + 7 + 1) % 7 = (d + 1) % 7 := by omega
    simp only [hmod]
    by_cases hw : (d + 1) % 7 < 5
    · simp only [hw, if_true]
      by_cases hb : tgt ≤ cnt + 1
      · simp [hb]
      · simp only [hb, if_false]
        have h7 : d + 7 + 1 = (d + 1) + 7 := by omega
        rw [h7, ih]
    · simp only [hw, if_false]
      by_cases hb : tgt ≤ cnt
      · simp [hb]
      · simp only [hb, if_false]
        have h7 : d + 7 + 1 = (d + 1) + 7 := by omega
        rw [h7, ih]

theorem dueDay_monday : ∀ q : Nat, dueDay 35 (7 * q) 0 20 = 7 * q + 28 := by
  intro q
  induction q with
  | zero =>
    show dueDay 35 (7 * 0) 0 20 = 7 * 0 + 28
    decide
  | succ n ih =>
    have h7 : 7 * (n + 1) = 7 * n + 7 := by ring
    rw [h7, dueDay_shift, ih]

/-! ### The claims -/

/-- C1: for every book present in the store, after every mutating
operation (add book, update book, borrow, reserve, cancel reservation,
return, delete book) applied to a reachable state, `available_copies`
equals `total_copies` minus the number of borrowing records of that book
with status `"borrowed"`. -/
theorem claim_C1_copies_equation (s : LibState) (h : Reachable s) (o : Op) :
    CopiesInv (applyOp s o) :=
  (wf_applyOp s o (wf_reachable h)).2.1

theorem claim_C1_witness :
    CopiesInv (applyOp (runOps [] [Op.addBook "B" "A" "i" "" 2])
      (Op.borrowBook ⟨0, 0, 0, 0, 0⟩ 1 1)) :=
  claim_C1_copies_equation (runOps [] [Op.addBook "B" "A" "i" "" 2])
    ⟨[], [Op.addBook "B" "A" "i" "" 2], rfl⟩ (Op.borrowBook ⟨0, 0, 0, 0, 0⟩ 1 1)

/-- C2: in every reachable state, each (student, book) pair has at most
one non-terminal (reserved or borrowed) record, and every operation
preserves this. -/
theorem claim_C2_pair_uniqueness (s : LibState) (h : Reachable s) :
    (∀ sid bid, pairActiveCount s.records sid bid ≤ 1) ∧
    (∀ o sid bid, pairActiveCount (applyOp s o).records sid bid ≤ 1) :=
  ⟨(wf_reachable h).2.2.1, fun o => (wf_applyOp s o (wf_reachable h)).2.2.1⟩

theorem claim_C2_witness :
    pairActiveCount (runOps []
      [Op.addBook "B" "A" "i" "" 1, Op.reserveBook 1 1]).records 1 1 ≤ 1 :=
  (claim_C2_pair_uniqueness (runOps [] [Op.addBook "B" "A" "i" "" 1, Op.reserveBook 1 1])
    ⟨[], [Op.addBook "B" "A" "i" "" 1, Op.reserveBook 1 1], rfl⟩).1 1 1

/-- C3 as stated is false on the code: when the target book is out of
stock, the availability check fires before the per-student limit check,
so a student who already has 3 borrowed records gets the out-of-stock
message, not the limit message.  Reachable counterexample: student 1 has
borrowed the single copies of books 1-3, student 2 holds the only copy of
book 4, and student 1 attempts to borrow book 4. -/
theorem claim_C3_counterexample :
    Reachable (runOps []
      [Op.addBook "B1" "A" "i1" "" 1, Op.addBook "B2" "A" "i2" "" 1,
       Op.addBook "B3" "A" "i3" "" 1, Op.addBook "B4" "A" "i4" "" 1,
       Op.borrowBook ⟨0, 0, 0, 0, 0⟩ 1 1, Op.borrowBook ⟨0, 0, 0, 0, 0⟩ 1 2,
       Op.borrowBook ⟨0, 0, 0, 0, 0⟩ 1 3, Op.borrowBook ⟨0, 0, 0, 0, 0⟩ 2 4]) ∧
    borrowedCountStudent (runOps []
      [Op.addBook "B1" "A" "i1" "" 1, Op.addBook "B2" "A" "i2" "" 1,
       Op.addBook "B3" "A" "i3" "" 1, Op.addBook "B4" "A" "i4" "" 1,
       Op.borrowBook ⟨0, 0, 0, 0, 0⟩ 1 1, Op.borrowBook ⟨0, 0, 0, 0, 0⟩ 1 2,
       Op.borrowBook ⟨0, 0, 0, 0, 0⟩ 1 3, Op.borrowBook ⟨0, 0, 0, 0, 0⟩ 2 4]).records 1 = 3 ∧
    (borrow_book ⟨0, 0, 0, 0, 0⟩ 1 4 (runOps []
      [Op.addBook "B1" "A" "i1" "" 1, Op.addBook "B2" "A" "i2" "" 1,
       Op.addBook "B3" "A" "i3" "" 1, Op.addBook "B4" "A" "i4" "" 1,
       Op.borrowBook ⟨0, 0, 0, 0, 0⟩ 1 1, Op.borrowBook ⟨0, 0, 0, 0, 0⟩ 1 2,
       Op.borrowBook ⟨0, 0, 0, 0, 0⟩ 1 3, Op.borrowBook ⟨0, 0, 0, 0, 0⟩ 2 4])).2.message =
      "No copies of this book are currently available" ∧
    ¬ (borrow_book ⟨0, 0, 0, 0, 0⟩ 1 4 (runOps []
      [Op.addBook "B1" "A" "i1" "" 1, Op.addBook "B2" "A" "i2" "" 1,
       Op.addBook "B3" "A" "i3" "" 1, Op.addBook "B4" "A" "i4" "" 1,
       Op.borrowBook ⟨0, 0, 0, 0, 0⟩ 1 1, Op.borrowBook ⟨0, 0, 0, 0, 0⟩ 1 2,
       Op.borrowBook ⟨0, 0, 0, 0, 0⟩ 1 3, Op.borrowBook ⟨0, 0, 0, 0, 0⟩ 2 4])).2.message =
      "You have reached the maximum limit of 3 borrowed books" :=
  ⟨⟨[], _, rfl⟩, rfl, rfl, by decide⟩

/-- C3 (amended): in every reachable state every student has at most 3
borrowed records, and a borrow attempt for an existing book with at least
one available copy by a student who already has 3 borrowed records fails
with the message "You have reached the maximum limit of 3 borrowed books"
and leaves the state (hence the record table) unchanged. -/
theorem claim_C3_limit (s : LibState) (h : Reachable s) :
    (∀ sid, borrowedCountStudent s.records sid ≤ 3) ∧
    (∀ (now : DT) (sid bid : Nat) (b : Book),
      s.books.find? (fun b2 => b2.id = bid) = some b →
      0 < b.available_copies →
      borrowedCountStudent s.records sid = 3 →
      borrow_book now sid bid s =
        (s, ⟨"You have reached the maximum limit of 3 borrowed books", 400, none, none⟩)) := by
  constructor
  · exact (wf_reachable h).2.2.2.1
  · intro now sid bid b hfb hav hcnt
    unfold borrow_book
    rw [hfb]
    dsimp only
    rw [if_neg (by omega), if_pos (by omega)]

theorem claim_C3_witness :
    borrow_book ⟨0, 0, 0, 0, 0⟩ 1 4 (runOps []
      [Op.addBook "B1" "A" "i1" "" 1, Op.addBook "B2" "A" "i2" "" 1,
       Op.addBook "B3" "A" "i3" "" 1, Op.addBook "B4" "A" "i4" "" 1,
       Op.borrowBook ⟨0, 0, 0, 0, 0⟩ 1 1, Op.borrowBook ⟨0, 0, 0, 0, 0⟩ 1 2,
       Op.borrowBook ⟨0, 0, 0, 0, 0⟩ 1 3]) =
      (runOps []
        [Op.addBook "B1" "A" "i1" "" 1, Op.addBook "B2" "A" "i2" "" 1,
         Op.addBook "B3" "A" "i3" "" 1, Op.addBook "B4" "A" "i4" "" 1,
         Op.borrowBook ⟨0, 0, 0, 0, 0⟩ 1 1, Op.borrowBook ⟨0, 0, 0, 0, 0⟩ 1 2,
         Op.borrowBook ⟨0, 0, 0, 0, 0⟩ 1 3],
       ⟨"You have reached the maximum limit of 3 borrowed books", 400, none, none⟩) :=
  (claim_C3_limit _ ⟨[], _, rfl⟩).2 ⟨0, 0, 0, 0, 0⟩ 1 4 ⟨4, "B4", "A", "i4", "", 1, 1⟩
    (by decide) (by decide) (by decide)

/-- C9: for a borrow instant on a Monday (`day % 7 = 0`), the due date
with `max_weeks = 4` is the day 28 calendar days later, normalized to
23:59:59.999999, and exactly 20 of those 28 following days are working
days (Monday-Friday). -/
theorem claim_C9_due_date_monday (dt : DT) (hmon : dt.day % 7 = 0) :
    calculate_due_date dt 4 = ⟨dt.day + 28, 23, 59, 59, 999999⟩ ∧
    ((List.range 28).filter
      (fun k => is_working_day ⟨dt.day + (k + 1), 0, 0, 0, 0⟩)).length = 20 := by
  obtain ⟨q, hq⟩ := Nat.dvd_of_mod_eq_zero hmon
  constructor
  · unfold calculate_due_date
    rw [dueLoop_eq_dueDay]
    show (⟨dueDay (4 * 7 + 7) dt.day 0 (4 * 5), 23, 59, 59, 999999⟩ : DT) = _
    have h35 : (4 * 7 + 7 : Nat) = 35 := rfl
    have h20 : (4 * 5 : Nat) = 20 := rfl
    rw [h35, h20, hq, dueDay_monday]
  · have hcong : ∀ k ∈ List.range 28,
        (is_working_day ⟨dt.day + (k + 1), 0, 0, 0, 0⟩) =
        ((fun k => decide ((k + 1) % 7 < 5)) k) := by
      intro k hk
      unfold is_working_day
      rw [decide_eq_decide, hq]
      dsimp only
      constructor
      · intro hlt; omega
      · intro hlt; omega
    rw [List.filter_congr hcong]
    decide

theorem claim_C9_witness :
    calculate_due_date ⟨7, 9, 30, 0, 0⟩ 4 = ⟨35, 23, 59, 59, 999999⟩ ∧
    ((List.range 28).filter
      (fun k => is_working_day ⟨7 + (k + 1), 0, 0, 0, 0⟩)).length = 20 :=
  claim_C9_due_date_monday ⟨7, 9, 30, 0, 0⟩ (by decide)

/-- C4, evaluated at the failing input: in a fresh store with one
single-copy book, the first borrow by student 1 succeeds and leaves 0
available copies, but the second borrow by the same student is refused
with the out-of-stock message — the availability check at the top of
`borrow_book` fires before the already-borrowed check, contradicting the
spec scenario and the repository's own test
`test_student_borrow_already_borrowed`, which expect "You have already
borrowed this book".  After the librarian returns the record, one copy is
available again. -/
theorem claim_C4_code_eval :
    (borrow_book ⟨0, 0, 0, 0, 0⟩ 1 1 (runOps [] [Op.addBook "B" "A" "i" "" 1])).2.message =
      "Book borrowed successfully" ∧
    ((runOps [] [Op.addBook "B" "A" "i" "" 1,
        Op.borrowBook ⟨0, 0, 0, 0, 0⟩ 1 1]).books.map (fun b => b.available_copies)) = [0] ∧
    (borrow_book ⟨0, 0, 0, 0, 0⟩ 1 1 (runOps [] [Op.addBook "B" "A" "i" "" 1,
        Op.borrowBook ⟨0, 0, 0, 0, 0⟩ 1 1])).2.message =
      "No copies of this book are currently available" ∧
    ¬ (borrow_book ⟨0, 0, 0, 0, 0⟩ 1 1 (runOps [] [Op.addBook "B" "A" "i" "" 1,
        Op.borrowBook ⟨0, 0, 0, 0, 0⟩ 1 1])).2.message =
      "You have already borrowed this book" ∧
    ((runOps [] [Op.addBook "B" "A" "i" "" 1, Op.borrowBook ⟨0, 0, 0, 0, 0⟩ 1 1,
        Op.returnBook ⟨1, 0, 0, 0, 0⟩ 1]).books.map (fun b => b.available_copies)) = [1] :=
  ⟨rfl, rfl, rfl, by decide, rfl⟩

/-- C7: returning a record that is already `"returned"` fails with the
InvalidState message and leaves the whole state (users, books and
borrowing records) unchanged. -/
theorem claim_C7_return_idempotent (now : DT) (rid : Nat) (s : LibState)
    (rec : BorrowingRecord)
    (hfr : s.records.find? (fun r => r.id = rid) = some rec)
    (hst : rec.status = "returned") :
    return_book now rid s =
      (s, ⟨"Book is not currently borrowed or reserved", 400, none, none⟩) := by
  unfold return_book
  rw [hfr]
  dsimp only
  rw [if_neg (by simp [hst])]

theorem claim_C7_witness :
    return_book ⟨2, 0, 0, 0, 0⟩ 1 (runOps [] [Op.addBook "B" "A" "i" "" 1,
        Op.borrowBook ⟨0, 0, 0, 0, 0⟩ 1 1, Op.returnBook ⟨1, 0, 0, 0, 0⟩ 1]) =
      (runOps [] [Op.addBook "B" "A" "i" "" 1, Op.borrowBook ⟨0, 0, 0, 0, 0⟩ 1 1,
        Op.returnBook ⟨1, 0, 0, 0, 0⟩ 1],
       ⟨"Book is not currently borrowed or reserved", 400, none, none⟩) :=
  claim_C7_return_idempotent ⟨2, 0, 0, 0, 0⟩ 1 _
    ⟨1, 1, 1, isoformat ⟨0, 0, 0, 0, 0⟩, isoformat (calculate_due_date ⟨0, 0, 0, 0, 0⟩ 4),
     isoformat ⟨1, 0, 0, 0, 0⟩, "returned"⟩ (by decide) rfl

/-- C6: `return_book` fails NotFound when no record has the given id,
fails InvalidState when the record's status is terminal, and otherwise
(when the record's book exists) sets the record to `"returned"` with
`return_date = now` and increments the book's available copies exactly
when the record's `borrow_date` is non-empty. -/
theorem claim_C6_return_spec (now : DT) (rid : Nat) (s : LibState) :
    (s.records.find? (fun r => r.id = rid) = none →
      return_book now rid s = (s, ⟨"Borrowing record not found", 404, none, none⟩)) ∧
    (∀ rec, s.records.find? (fun r => r.id = rid) = some rec →
      ¬ (rec.status = "borrowed" ∨ rec.status = "reserved") →
      return_book now rid s =
        (s, ⟨"Book is not currently borrowed or reserved", 400, none, none⟩)) ∧
    (∀ rec b, s.records.find? (fun r => r.id = rid) = some rec →
      (rec.status = "borrowed" ∨ rec.status = "reserved") →
      s.books.find? (fun b2 => b2.id = rec.book_id) = some b →
      ∃ s2, return_book now rid s =
          (s2, ⟨"Book returned successfully", 200,
            some { rec with status := "returned", return_date := isoformat now }, none⟩) ∧
        s2.users = s.users ∧
        s2.records.length = s.records.length ∧
        s2.records.find? (fun r => r.id = rid) =
          some { rec with status := "returned", return_date := isoformat now } ∧
        s2.books.find? (fun b2 => b2.id = rec.book_id) =
          some { b with available_copies :=
            b.available_copies + (if rec.borrow_date = "" then 0 else 1) }) := by
  refine ⟨?_, ?_, ?_⟩
  · intro hnone
    unfold return_book
    rw [hnone]
  · intro rec hfr hst
    unfold return_book
    rw [hfr]
    dsimp only
    rw [if_neg hst]
  · intro rec b hfr hst hfb
    unfold return_book
    rw [hfr]
    dsimp only
    rw [if_pos hst, hfb]
    dsimp only
    obtain ⟨r1, r2, hsplit, hr1, hprec, hupd⟩ :=
      updateFirst_split (fun r =>
        { r with status := "returned", return_date := isoformat now }) hfr
    refine ⟨_, rfl, rfl, ?_, ?_, ?_⟩
    · rw [hupd, hsplit]
      simp
    · rw [hupd]
      rw [find_append_forall_false _ hr1]
      refine List.find?_cons_of_pos _ ?_
      simpa using hprec
    · by_cases hbd : rec.borrow_date = ""
      · rw [if_pos hbd, if_pos hbd, add_zero]
        exact hfb
      · rw [if_neg hbd, if_neg hbd]
        obtain ⟨b1, b2, hbsplit, hb1, hbp, hbupd⟩ :=
          updateFirst_split (fun b2 =>
            { b2 with available_copies := b2.available_copies + 1 }) hfb
        rw [hbupd]
        rw [find_append_forall_false _ hb1]
        refine List.find?_cons_of_pos _ ?_
        simpa using hbp

theorem claim_C6_witness :
    ∃ s2, return_book ⟨1, 0, 0, 0, 0⟩ 1
        (runOps [] [Op.addBook "B" "A" "i" "" 1, Op.borrowBook ⟨0, 0, 0, 0, 0⟩ 1 1]) =
        (s2, ⟨"Book returned successfully", 200,
          some { (⟨1, 1, 1, isoformat ⟨0, 0, 0, 0, 0⟩,
            isoformat (calculate_due_date ⟨0, 0, 0, 0, 0⟩ 4), "", "borrowed"⟩ : BorrowingRecord) with
            status := "returned", return_date := isoformat ⟨1, 0, 0, 0, 0⟩ }, none⟩) ∧
      s2.users = (runOps [] [Op.addBook "B" "A" "i" "" 1,
        Op.borrowBook ⟨0, 0, 0, 0, 0⟩ 1 1]).users ∧
      s2.records.length = (runOps [] [Op.addBook "B" "A" "i" "" 1,
        Op.borrowBook ⟨0, 0, 0, 0, 0⟩ 1 1]).records.length ∧
      s2.records.find? (fun r => r.id = 1) =
        some { (⟨1, 1, 1, isoformat ⟨0, 0, 0, 0, 0⟩,
          isoformat (calculate_due_date ⟨0, 0, 0, 0, 0⟩ 4), "", "borrowed"⟩ : BorrowingRecord) with
          status := "returned", return_date := isoformat ⟨1, 0, 0, 0, 0⟩ } ∧
      s2.books.find? (fun b2 => b2.id = 1) =
        some { (⟨1, "B", "A", "i", "", 1, 0⟩ : Book) with
          available_copies := (0 : Int) +
            (if (isoformat ⟨0, 0, 0, 0, 0⟩ : String) = "" then 0 else 1) } :=
  (claim_C6_return_spec ⟨1, 0, 0, 0, 0⟩ 1
    (runOps [] [Op.addBook "B" "A" "i" "" 1, Op.borrowBook ⟨0, 0, 0, 0, 0⟩ 1 1])).2.2
    ⟨1, 1, 1, isoformat ⟨0, 0, 0, 0, 0⟩, isoformat (calculate_due_date ⟨0, 0, 0, 0, 0⟩ 4),
      "", "borrowed"⟩
    ⟨1, "B", "A", "i", "", 1, 0⟩ (by decide) (Or.inl rfl) (by decide)

/-- C8: updating only a book's `total_copies` to `new_total` fails with
the exact ValidationError message and leaves the state unchanged when
`new_total` is below the currently borrowed count
(`total_copies - available_copies`); otherwise it succeeds, setting
`available_copies := old_available + (new_total - old_total)` and
`total_copies := new_total`. -/
theorem claim_C8_update_total_copies (s : LibState) (bid : Nat) (nt : Int) (b : Book)
    (hfb : s.books.find? (fun b2 => b2.id = bid) = some b) :
    (nt < b.total_copies - b.available_copies →
      update_book bid none none none none (some nt) s =
        (s, ⟨"Cannot reduce total copies below currently borrowed copies", 400, none, none⟩)) ∧
    (b.total_copies - b.available_copies ≤ nt →
      ∃ s2, update_book bid none none none none (some nt) s =
          (s2, ⟨"Book updated successfully", 200, none,
            some { b with
              available_copies := b.available_copies + (nt - b.total_copies),
              total_copies := nt }⟩) ∧
        s2.users = s.users ∧ s2.records = s.records ∧
        s2.books.find? (fun b2 => b2.id = bid) =
          some { b with
            available_copies := b.available_copies + (nt - b.total_copies),
            total_copies := nt }) := by
  obtain ⟨b1, b2, hbsplit, hb1, hbp, _⟩ :=
    updateFirst_split (fun _ => b) hfb
  constructor
  · intro hlt
    unfold update_book
    rw [hfb]
    dsimp only
    rw [if_neg (by simp), if_pos hlt]
    have hwb : updateFirst (fun b2 => b2.id = bid) (fun _ => b) s.books = s.books := by
      obtain ⟨l1, l2, hs2, hl1, hpb, hu⟩ := updateFirst_split (fun _ => b) hfb
      rw [hu, ← hs2]
    rw [hwb]
  · intro hge
    unfold update_book
    rw [hfb]
    dsimp only
    rw [if_neg (by simp), if_neg (by omega)]
    obtain ⟨l1, l2, hs2, hl1, hpb, hu⟩ :=
      updateFirst_split (fun _ => ({ b with
        available_copies := b.available_copies + (nt - b.total_copies),
        total_copies := nt } : Book)) hfb
    refine ⟨_, rfl, rfl, rfl, ?_⟩
    rw [hu]
    rw [find_append_forall_false _ hl1]
    refine List.find?_cons_of_pos _ ?_
    simpa using hpb

theorem claim_C8_witness :
    ∃ s2, update_book 1 none none none none (some 5)
        (runOps [] [Op.addBook "B" "A" "i" "" 2]) =
        (s2, ⟨"Book updated successfully", 200, none,
          some { (⟨1, "B", "A", "i", "", 2, 2⟩ : Book) with
            available_copies := (2 : Int) + (5 - 2), total_copies := (5 : Int) }⟩) ∧
      s2.users = (runOps [] [Op.addBook "B" "A" "i" "" 2]).users ∧
      s2.records = (runOps [] [Op.addBook "B" "A" "i" "" 2]).records ∧
      s2.books.find? (fun b2 => b2.id = 1) =
        some { (⟨1, "B", "A", "i", "", 2, 2⟩ : Book) with
          available_copies := (2 : Int) + (5 - 2), total_copies := (5 : Int) } :=
  (claim_C8_update_total_copies (runOps [] [Op.addBook "B" "A" "i" "" 2]) 1 5
    ⟨1, "B", "A", "i", "", 2, 2⟩ (by decide)).2 (by decide)

/-- C10: deleting an existing book is refused with the exact Conflict
message while any record of that book is `"reserved"` or `"borrowed"`
(the state is unchanged, so the book stays in place); once no such record
remains, the deletion succeeds and removes the book. -/
theorem claim_C10_delete_gating (s : LibState) (bid : Nat) (b : Book)
    (hfb : s.books.find? (fun b2 => b2.id = bid) = some b) :
    ((∃ r ∈ s.records, r.book_id = bid ∧
        (r.status = "reserved" ∨ r.status = "borrowed")) →
      delete_book bid s =
        (s, ⟨"Cannot delete book: active borrowing or reservation records exist", 400, none, none⟩)) ∧
    ((∀ r ∈ s.records, r.book_id = bid →
        ¬ (r.status = "reserved" ∨ r.status = "borrowed")) →
      ∃ s2, delete_book bid s = (s2, ⟨"Book deleted successfully", 200, none, none⟩) ∧
        s2.users = s.users ∧ s2.records = s.records ∧
        s2.books.length + 1 = s.books.length ∧
        ((s.books.map (fun b2 => b2.id)).Nodup →
          s2.books.find? (fun b2 => b2.id = bid) = none)) := by
  constructor
  · rintro ⟨r, hr, hrb, hrs⟩
    unfold delete_book
    rw [hfb]
    dsimp only
    have hne : ¬ (s.records.filter (fun r2 => r2.book_id = bid ∧
        (r2.status = "borrowed" ∨ r2.status = "reserved"))).isEmpty = true := by
      rw [List.isEmpty_iff]
      intro hnil
      have hmem : r ∈ s.records.filter (fun r2 => r2.book_id = bid ∧
          (r2.status = "borrowed" ∨ r2.status = "reserved")) :=
        List.mem_filter.mpr ⟨hr, by simp [hrb]; tauto⟩
      rw [hnil] at hmem
      simp at hmem
    rw [if_neg hne]
  · intro hall
    unfold delete_book
    rw [hfb]
    dsimp only
    have hempty : (s.records.filter (fun r2 => r2.book_id = bid ∧
        (r2.status = "borrowed" ∨ r2.status = "reserved"))).isEmpty = true := by
      rw [List.isEmpty_iff, List.filter_eq_nil_iff]
      intro r hr
      simp only [decide_eq_true_eq]
      rintro ⟨hrb, hrs⟩
      exact hall r hr hrb hrs.symm
    rw [if_pos hempty]
    obtain ⟨l1, l2, hs2, hl1, hpb, hrem⟩ := removeFirst_split hfb
    rw [hrem]
    refine ⟨_, rfl, rfl, rfl, ?_, ?_⟩
    · rw [hs2]
      simp
      omega
    · intro hnd
      rw [hs2, List.map_append, List.map_cons] at hnd
      have hbid : b.id = bid := by simpa using hpb
      rw [List.find?_eq_none]
      intro x hx
      simp only [decide_eq_true_eq]
      intro hxid
      rcases List.mem_append.mp hx with h1 | h2
      · have := hl1 x h1
        simp [hxid] at this
      · have hnotin : b.id ∉ l2.map (fun b2 => b2.id) :=
          (List.nodup_cons.mp (List.nodup_append.mp hnd).2.1).1
        exact hnotin (by rw [hbid, ← hxid]; exact List.mem_map_of_mem (fun b2 => b2.id) h2)

theorem claim_C10_witness :
    ∃ s2, delete_book 1 (runOps [] [Op.addBook "B" "A" "i" "" 1,
        Op.reserveBook 1 1, Op.cancelRes ⟨0, 0, 0, 0, 0⟩ 1 1]) =
        (s2, ⟨"Book deleted successfully", 200, none, none⟩) ∧
      s2.users = (runOps [] [Op.addBook "B" "A" "i" "" 1,
        Op.reserveBook 1 1, Op.cancelRes ⟨0, 0, 0, 0, 0⟩ 1 1]).users ∧
      s2.records = (runOps [] [Op.addBook "B" "A" "i" "" 1,
        Op.reserveBook 1 1, Op.cancelRes ⟨0, 0, 0, 0, 0⟩ 1 1]).records ∧
      s2.books.length + 1 = (runOps [] [Op.addBook "B" "A" "i" "" 1,
        Op.reserveBook 1 1, Op.cancelRes ⟨0, 0, 0, 0, 0⟩ 1 1]).books.length ∧
      (((runOps [] [Op.addBook "B" "A" "i" "" 1,
        Op.reserveBook 1 1, Op.cancelRes ⟨0, 0, 0, 0, 0⟩ 1 1]).books.map
          (fun b2 => b2.id)).Nodup →
        s2.books.find? (fun b2 => b2.id = 1) = none) :=
  (claim_C10_delete_gating (runOps [] [Op.addBook "B" "A" "i" "" 1,
      Op.reserveBook 1 1, Op.cancelRes ⟨0, 0, 0, 0, 0⟩ 1 1]) 1
    ⟨1, "B", "A", "i", "", 1, 1⟩ (by decide)).2 (by decide)

/-- C5: after a successful `reserve_book` for (student, book), a
`borrow_book` for the same pair, issued while the book has at least one
available copy and the student has fewer than 3 borrowed records,
converts the reservation record in place: the response record carries the
reservation's id with status `"borrowed"` and non-empty borrow and due
dates, no new record is created, and the book's available copies drop
by 1. -/
theorem claim_C5_reserve_then_borrow (s sr : LibState) (now : DT) (sid bid : Nat)
    (r0 : BorrowingRecord) (b : Book)
    (hres : reserve_book sid bid s =
      (sr, ⟨"Book reserved successfully", 201, some r0, none⟩))
    (hb : sr.books.find? (fun b2 => b2.id = bid) = some b)
    (hav : 1 ≤ b.available_copies)
    (hcnt : borrowedCountStudent sr.records sid < 3) :
    ∃ s2 r, borrow_book now sid bid sr =
        (s2, ⟨"Reserved book collected and borrowed successfully", 200, some r, none⟩) ∧
      r.id = r0.id ∧ r.status = "borrowed" ∧
      ¬ r.borrow_date = "" ∧ ¬ r.due_date = "" ∧
      s2.records.length = sr.records.length ∧
      s2.books.find? (fun b2 => b2.id = bid) =
        some { b with available_copies := b.available_copies - 1 } := by
  unfold reserve_book at hres
  cases hfb0 : s.books.find? (fun b2 => b2.id = bid) with
  | none =>
    rw [hfb0] at hres
    simp at hres
  | some book0 =>
    rw [hfb0] at hres
    dsimp only at hres
    cases hfr0 : s.records.find? (pairActive sid bid) with
    | some er =>
      rw [hfr0] at hres
      simp at hres
    | none =>
      rw [hfr0] at hres
      dsimp only at hres
      set nr : BorrowingRecord :=
        ⟨get_next_id (s.records.map (fun r => r.id)), sid, bid, "", "", "", "reserved"⟩
        with hnr
      rw [Prod.mk.injEq] at hres
      obtain ⟨hsr, hresp⟩ := hres
      subst hsr
      have hrec : nr = r0 := by
        have := congrArg Response.record hresp
        simpa using this
      have hb2 : s.books.find? (fun b2 => b2.id = bid) = some b := hb
      have hcnt2 : borrowedCountStudent (s.records ++ [nr]) sid < 3 := hcnt
      have hforall : ∀ x ∈ s.records, pairActive sid bid x = false := by
        intro x hx
        have := List.find?_eq_none.mp hfr0 x hx
        rwa [Bool.not_eq_true] at this
      have hpnr : pairActive sid bid nr = true := by simp [pairActive, hnr]
      have hfr2 : (s.records ++ [nr]).find? (pairActive sid bid) = some nr := by
        rw [find_append_forall_false _ hforall]
        exact List.find?_cons_of_pos _ hpnr
      unfold borrow_book
      dsimp only
      rw [hb2, hfr2]
      dsimp only
      rw [if_neg (by omega), if_neg (by omega), if_neg (by simp [hnr])]
      obtain ⟨l1, l2, hsb, hl1, hpb, hup⟩ :=
        updateFirst_split (fun b2 =>
          { b2 with available_copies := b2.available_copies - 1 }) hb2
      have hrecords : updateFirst (pairActive sid bid)
          (fun r => { r with
            status := "borrowed",
            borrow_date := isoformat now,
            due_date := isoformat (calculate_due_date now 4) }) (s.records ++ [nr]) =
          s.records ++ [{ nr with
            status := "borrowed",
            borrow_date := isoformat now,
            due_date := isoformat (calculate_due_date now 4) }] := by
        rw [updateFirst_append_forall_false _ hforall]
        simp [updateFirst, hpnr]
      refine ⟨_, _, rfl, ?_, rfl, isoformat_ne_empty now,
        isoformat_ne_empty (calculate_due_date now 4), ?_, ?_⟩
      · show nr.id = r0.id
        rw [hrec]
      · show (updateFirst (pairActive sid bid) _ (s.records ++ [nr])).length =
          (s.records ++ [nr]).length
        rw [hrecords]
        simp
      · show (updateFirst (fun b2 => b2.id = bid)
            (fun b2 => { b2 with available_copies := b2.available_copies - 1 })
            s.books).find? (fun b2 => b2.id = bid) =
          some { b with available_copies := b.available_copies - 1 }
        rw [hup]
        rw [find_append_forall_false _ hl1]
        refine List.find?_cons_of_pos _ ?_
        simpa using hpb

theorem claim_C5_witness :
    ∃ s2 r, borrow_book ⟨0, 0, 0, 0, 0⟩ 1 1
        (reserve_book 1 1 (runOps [] [Op.addBook "B" "A" "i" "" 2])).1 =
        (s2, ⟨"Reserved book collected and borrowed successfully", 200, some r, none⟩) ∧
      r.id = (⟨1, 1, 1, "", "", "", "reserved"⟩ : BorrowingRecord).id ∧
      r.status = "borrowed" ∧ ¬ r.borrow_date = "" ∧ ¬ r.due_date = "" ∧
      s2.records.length =
        (reserve_book 1 1 (runOps [] [Op.addBook "B" "A" "i" "" 2])).1.records.length ∧
      s2.books.find? (fun b2 => b2.id = 1) =
        some { (⟨1, "B", "A", "i", "", 2, 2⟩ : Book) with
          available_copies := (2 : Int) - 1 } :=
  claim_C5_reserve_then_borrow (runOps [] [Op.addBook "B" "A" "i" "" 2])
    (reserve_book 1 1 (runOps [] [Op.addBook "B" "A" "i" "" 2])).1
    ⟨0, 0, 0, 0, 0⟩ 1 1 ⟨1, 1, 1, "", "", "", "reserved"⟩ ⟨1, "B", "A", "i", "", 2, 2⟩
    (by decide) (by decide) (by decide) (by decide)

end MyLib
